import Mathlib

/-!
Verification of the Horisation tabular-data engine
(`Backend/Functions/csv_processor.py`, `Backend/Functions/csv_cleaner.py`,
`Backend/Controller/csv_handling.py`) against its natural-language
specification.

The Python code is shallowly embedded: pandas `DataFrame`s become a row-major
table of tagged-union cells, Python `float` arithmetic is modelled by exact
rationals (no claim below depends on binary floating-point rounding), and
raising code paths are modelled with `Except`.  Each definition carries a
reference to the source lines it embeds.
-/

namespace Horisation

/-- A cell of a table: the tagged union `{Null, Integer, Float, Boolean, Text}`.
`Cell.null` stands for any of pandas' missing scalars (`NaN`, `pd.NA`, `NaT`,
`None`); `Cell.num` models a Python float by an exact rational. -/
inductive Cell where
  | null : Cell
  | int  : Int → Cell
  | num  : Rat → Cell
  | text : String → Cell
  | bool : Bool → Cell
  | date : Nat → Nat → Nat → Cell
deriving DecidableEq, Repr

/-- A pandas `DataFrame`, row-major: ordered column labels plus a list of rows,
each row a list of cells aligned with `names`. -/
structure DataFrame where
  names : List String
  rows  : List (List Cell)
deriving DecidableEq, Repr

/-- A `DataFrame` is rectangular: every row has one cell per column label.
(pandas maintains this invariant for every frame it constructs.) -/
def DataFrame.Wf (df : DataFrame) : Prop :=
  ∀ r ∈ df.rows, r.length = df.names.length

instance (df : DataFrame) : Decidable df.Wf := by
  unfold DataFrame.Wf; infer_instance

instance {ε α : Type} [DecidableEq ε] [DecidableEq α] : DecidableEq (Except ε α) :=
  fun a b =>
    match a, b with
    | .ok x, .ok y =>
      if h : x = y then .isTrue (by rw [h])
      else .isFalse (by intro hc; cases hc; exact h rfl)
    | .error x, .error y =>
      if h : x = y then .isTrue (by rw [h])
      else .isFalse (by intro hc; cases hc; exact h rfl)
    | .ok _, .error _ => .isFalse (by intro hc; cases hc)
    | .error _, .ok _ => .isFalse (by intro hc; cases hc)

/-! ### Python string primitives

ASCII case mapping exactly as CPython's `str.upper` / `str.lower` /
`str.capitalize` behave on ASCII text (the engine's regexes
`[^0-9a-zA-Z_]` and `\s` are likewise modelled on their ASCII core). -/

/-- The ASCII fragment of `str.upper` on one character.  CPython's full
Unicode uppercase mappings (which can expand one character into two, e.g.
`ß` to `SS`) are modelled by `pyUpperCharU` below; statements that quantify
over arbitrary names therefore restrict to the ASCII alphabet, on which this
map is exact. -/
def pyUpperChar (c : Char) : Char :=
  if 97 ≤ c.toNat ∧ c.toNat ≤ 122 then Char.ofNat (c.toNat - 32) else c

/-- The ASCII fragment of `str.lower` on one character (see `pyUpperChar`
for the scope of the ASCII maps; `pyLowerCharU` is the full-mapping view). -/
def pyLowerChar (c : Char) : Char :=
  if 65 ≤ c.toNat ∧ c.toNat ≤ 90 then Char.ofNat (c.toNat + 32) else c

/-- The whitespace class of Python's `str.strip` and the regex `\s`
(`' '`, `'\t'`, `'\n'`, `'\r'`, `'\x0b'`, `'\x0c'`), phrased on code points. -/
def isPyWs (c : Char) : Bool :=
  decide (c.toNat = 32 ∨ c.toNat = 9 ∨ c.toNat = 10 ∨ c.toNat = 13 ∨
          c.toNat = 11 ∨ c.toNat = 12)

/-- Membership in the character class `[0-9a-zA-Z_]` of the
`strip_special` regex in `clean_column_names`, phrased on code points. -/
def isWordChar (c : Char) : Bool :=
  decide ((48 ≤ c.toNat ∧ c.toNat ≤ 57) ∨ (65 ≤ c.toNat ∧ c.toNat ≤ 90) ∨
          (97 ≤ c.toNat ∧ c.toNat ≤ 122) ∨ c.toNat = 95)

/-- `str.strip()`: drop leading and trailing whitespace. -/
def pyStripList (l : List Char) : List Char :=
  ((l.dropWhile isPyWs).reverse.dropWhile isPyWs).reverse

/-- Helper for `collapseWs`: the flag records whether the previous character
belonged to a whitespace run whose `_` has already been emitted. -/
def collapseWsAux : Bool → List Char → List Char
  | _, [] => []
  | inRun, c :: rest =>
    if isPyWs c then
      if inRun then collapseWsAux true rest
      else '_' :: collapseWsAux true rest
    else c :: collapseWsAux false rest

/-- `re.sub(r"\s+", "_", s)`: replace every maximal whitespace run by one `_`. -/
def collapseWs (l : List Char) : List Char :=
  collapseWsAux false l

/-- `str.upper` on a string. -/
def pyUpperStr (s : String) : String := ⟨s.data.map pyUpperChar⟩

/-- `str.lower` on a string. -/
def pyLowerStr (s : String) : String := ⟨s.data.map pyLowerChar⟩

/-- `str.strip` on a string. -/
def pyStrip (s : String) : String := ⟨pyStripList s.data⟩

/-- `str.capitalize()` of one `_`-separated part, on the ASCII alphabet:
first character upper-cased, the remainder lower-cased.  CPython title-cases
the first character with the full Unicode mappings (`'ŉ'.capitalize()` is
`'ʼN'`); `pyCapitalizeU` below models those entries, and the two maps agree
on ASCII. -/
def pyCapitalize (l : List Char) : List Char :=
  match l with
  | [] => []
  | c :: rest => pyUpperChar c :: rest.map pyLowerChar

/-- `col.split("_")`: split at every underscore, keeping empty parts
(`"a__b".split("_") == ["a", "", "b"]`, `"".split("_") == [""]`). -/
def splitUnderscore : List Char → List (List Char)
  | [] => [[]]
  | c :: rest =>
    if c = '_' then [] :: splitUnderscore rest
    else
      match splitUnderscore rest with
      | p :: ps => (c :: p) :: ps
      | [] => [[c]]

/-- `"_".join(parts)`. -/
def joinUnderscore : List (List Char) → List Char
  | [] => []
  | [p] => p
  | p :: ps => p ++ '_' :: joinUnderscore ps

/-! ### Column-name normalisation -/

/-- The loop body of `CSVCleaner.clean_column_names`
(`Backend/Functions/csv_cleaner.py:48-61`) applied to one (string) column
name: `strip`, collapse whitespace runs to `_`, optionally delete characters
outside `[0-9a-zA-Z_]`, then apply the requested case transform.
`case_value = (case or "").lower()` is mirrored by lower-casing the default
`""`. -/
def normaliseName (case : Option String) (strip_special : Bool) (s : String) : String :=
  let l := pyStripList s.data
  let l := collapseWs l
  let l := if strip_special then l.filter isWordChar else l
  let cv := pyLowerStr (case.getD "")
  if cv = "upper" then ⟨l.map pyUpperChar⟩
  else if cv = "lower" then ⟨l.map pyLowerChar⟩
  else if cv = "title" then ⟨joinUnderscore ((splitUnderscore l).map pyCapitalize)⟩
  else ⟨l⟩

/-- Embedding of `CSVCleaner.clean_column_names`
(`Backend/Functions/csv_cleaner.py:16-64`).  Column labels are strings here,
so the `isinstance(original, str)` passthrough branch never fires; `cols=None`
targets every column.  Names are rewritten independently — the source has no
collision handling. -/
def cleanColumnNames (df : DataFrame) (cols : Option (List String))
    (case : Option String) (strip_special : Bool) : DataFrame :=
  let target := cols.getD df.names
  { df with
    names := df.names.map fun n =>
      if n ∈ target then normaliseName case strip_special n else n }

/-- Embedding of the controller variant `clean_column_name`
(`Backend/Controller/csv_handling.py:72-85`): `strip`, then
`str.replace(' ', '_')` (spaces only), then `upper`, applied to targeted
columns. -/
def chCleanColumnName (df : DataFrame) (cols : Option (List String)) : DataFrame :=
  let target := cols.getD df.names
  { df with
    names := df.names.map fun n =>
      if n ∈ target then
        pyUpperStr ⟨(pyStripList n.data).map fun c => if c = ' ' then '_' else c⟩
      else n }

/-! #### Unicode-aware refinement of the case transforms

CPython's `str.upper` / `str.lower` / `str.capitalize` use the full Unicode
case mappings, under which one character can map to two.  The maps below
refine the ASCII maps with the non-ASCII entries this development exercises
(`ŉ` U+0149, `ß` U+00DF, `ʼ` U+02BC); code points outside this modelled
alphabet are approximated as case-invariant, so every statement that
quantifies over arbitrary names restricts to ASCII, where the maps are
exactly CPython's. -/

/-- Full-mapping `str.upper` of one character: `ŉ` upper-cases to `ʼN`,
`ß` to `SS`, ASCII letters as usual, the rest of the modelled alphabet is
unchanged. -/
def pyUpperCharU (c : Char) : List Char :=
  if c.toNat = 0x149 then [Char.ofNat 0x2BC, 'N']
  else if c.toNat = 0xDF then ['S', 'S']
  else [pyUpperChar c]

/-- Full-mapping `str.lower` of one character: on the modelled alphabet all
lowercase mappings are single characters and agree with the ASCII map. -/
def pyLowerCharU (c : Char) : List Char :=
  [pyLowerChar c]

/-- Title-casing of one character, what `str.capitalize()` applies to the
first character: `ŉ` title-cases to `ʼN`, `ß` to `Ss`, ASCII letters
upper-case, the rest of the modelled alphabet is unchanged. -/
def pyTitleCharU (c : Char) : List Char :=
  if c.toNat = 0x149 then [Char.ofNat 0x2BC, 'N']
  else if c.toNat = 0xDF then ['S', 's']
  else [pyUpperChar c]

/-- `str.capitalize()` with the Unicode entries: the first character
title-cased, the remainder lower-cased. -/
def pyCapitalizeU : List Char → List Char
  | [] => []
  | c :: rest => pyTitleCharU c ++ rest.flatMap pyLowerCharU

/-- The loop body of `clean_column_names` (csv_cleaner.py:48-61) with the
Unicode-aware case transforms — the embedding used where non-ASCII names
matter.  The string-hygiene steps (strip, whitespace collapse, the ASCII
regex `[^0-9a-zA-Z_]`) are shared with `normaliseName`; the refinement
concerns only the case maps, and the two embeddings agree on ASCII names
(`normaliseNameU_eq_ascii`). -/
def normaliseNameU (case : Option String) (strip_special : Bool) (s : String) : String :=
  let l := pyStripList s.data
  let l := collapseWs l
  let l := if strip_special then l.filter isWordChar else l
  let cv := pyLowerStr (case.getD "")
  if cv = "upper" then ⟨l.flatMap pyUpperCharU⟩
  else if cv = "lower" then ⟨l.flatMap pyLowerCharU⟩
  else if cv = "title" then ⟨joinUnderscore ((splitUnderscore l).map pyCapitalizeU)⟩
  else ⟨l⟩

/-- `CSVCleaner.clean_column_names` (csv_cleaner.py:16-64) with the
Unicode-aware per-name normaliser: the refinement of `cleanColumnNames`
under which the idempotence question is settled. -/
def cleanColumnNamesU (df : DataFrame) (cols : Option (List String))
    (case : Option String) (strip_special : Bool) : DataFrame :=
  let target := cols.getD df.names
  { df with
    names := df.names.map fun n =>
      if n ∈ target then normaliseNameU case strip_special n else n }

/-! ### Scalar coercions -/

/-- Split a character list at every occurrence of `sep` (Python `str.split(sep)`
for a one-character separator, keeping empty parts). -/
def splitOnChar (sep : Char) : List Char → List (List Char)
  | [] => [[]]
  | c :: rest =>
    if c = sep then [] :: splitOnChar sep rest
    else
      match splitOnChar sep rest with
      | p :: ps => (c :: p) :: ps
      | [] => [[c]]

/-- Is `l` a nonempty run of ASCII digits? -/
def allDigits (l : List Char) : Bool :=
  !l.isEmpty && l.all fun c => decide (48 ≤ c.toNat ∧ c.toNat ≤ 57)

/-- Decimal value of a digit run. -/
def digitsToNat (l : List Char) : Nat :=
  l.foldl (fun a c => a * 10 + (c.toNat - 48)) 0

/-- The number grammar accepted by `pd.to_numeric` on a string, modelled
without exponent notation: optional sign, then `digits`, `digits.digits`,
`digits.` or `.digits`, surrounded by optional whitespace. -/
def parsePyNumber (s : String) : Option Rat :=
  let l := pyStripList s.data
  let signed : Bool × List Char :=
    match l with
    | '-' :: r => (true, r)
    | '+' :: r => (false, r)
    | _ => (false, l)
  let body : Option Rat :=
    match splitOnChar '.' signed.2 with
    | [ip] => if allDigits ip then some (digitsToNat ip : Rat) else none
    | [ip, fp] =>
      if (ip.all fun c => decide (48 ≤ c.toNat ∧ c.toNat ≤ 57)) ∧
         (fp.all fun c => decide (48 ≤ c.toNat ∧ c.toNat ≤ 57)) ∧
         (ip ≠ [] ∨ fp ≠ []) then
        some ((digitsToNat ip : Rat) + (digitsToNat fp : Rat) / (10 : Rat) ^ fp.length)
      else none
    | _ => none
  body.map fun q => if signed.1 then -q else q

/-- `pd.to_numeric(x, errors="coerce")` on one scalar: numbers pass through,
booleans coerce to `0`/`1`, parsable text becomes a number (integral text an
integer), everything else degrades to `NaN`. -/
def toNumericCell : Cell → Cell
  | .null => .null
  | .int n => .int n
  | .num q => .num q
  | .bool b => .int (if b then 1 else 0)
  | .text s =>
    match parsePyNumber s with
    | some q => if q.den = 1 then .int q.num else .num q
    | none => .null
  | .date _ _ _ => .null

/-- The rational value of a numeric cell, `none` for non-numeric / missing. -/
def cellRat? : Cell → Option Rat
  | .int n => some (n : Rat)
  | .num q => some q
  | _ => none

/-- Round half-to-even to `d` decimal places (numpy/pandas `round` semantics,
on the exact-rational model of floats). -/
def roundHalfEven (d : Int) (q : Rat) : Rat :=
  let scale : Rat := (10 : Rat) ^ d
  let x := q * scale
  let fl : Int := x.floor
  let frac := x - (fl : Rat)
  let r : Int :=
    if frac < 1 / 2 then fl
    else if 1 / 2 < frac then fl + 1
    else if fl % 2 = 0 then fl else fl + 1
  (r : Rat) / scale

/-- Smallest power of ten clearing the denominator of `q` (searched up to
`10 ^ 30`); `some e` whenever `q` has a terminating decimal expansion. -/
def decExp (q : Rat) : Option Nat :=
  (List.range 31).find? fun e => (q * (10 : Rat) ^ e).den = 1

/-- `str(x)` for a Python float, modelled as the exact shortest decimal
expansion (the engine only renders values just rounded to a fixed number of
decimal places, where this coincides with CPython's repr). -/
def pyFloatStr (q : Rat) : String :=
  match decExp q with
  | some 0 => toString q.num ++ ".0"
  | some e =>
    let n := (q * (10 : Rat) ^ e).num
    let sign := if n < 0 then "-" else ""
    let ds := (toString n.natAbs).data
    let ds := List.replicate (e + 1 - ds.length) '0' ++ ds
    sign ++ String.mk (ds.take (ds.length - e)) ++ "." ++ String.mk (ds.drop (ds.length - e))
  | none => toString q

/-- `str(x)` / pandas `astype(str)` on one cell.  `NaN` renders as the literal
string `"nan"` (the pandas quirk the engine inherits). -/
def cellToPyStr : Cell → String
  | .null => "nan"
  | .int n => toString n
  | .num q => pyFloatStr q
  | .text s => s
  | .bool b => if b then "True" else "False"
  | .date y m d => toString y ++ "-" ++ toString m ++ "-" ++ toString d

/-! ### Column statistics (used by the missing-fill and outlier jobs) -/

/-- The non-missing rational values of a (numerically coerced) column. -/
def ratValues (cells : List Cell) : List Rat :=
  cells.filterMap cellRat?

/-- `Series.mean()` (missing values skipped). -/
def seriesMean (cells : List Cell) : Option Rat :=
  let vs := ratValues cells
  if vs.length = 0 then none else some (vs.sum / (vs.length : Rat))

/-- `Series.median()`: mean of the two middle order statistics. -/
def seriesMedian (cells : List Cell) : Option Rat :=
  let vs := (ratValues cells).mergeSort (· ≤ ·)
  match vs.length with
  | 0 => none
  | n + 1 =>
    if (n + 1) % 2 = 1 then some (vs.getD (n / 2) 0)
    else some ((vs.getD (n / 2) 0 + vs.getD (n / 2 + 1) 0) / 2)

/-- `Series.quantile(p)` with pandas' default linear interpolation between
order statistics. -/
def seriesQuantile (cells : List Cell) (p : Rat) : Option Rat :=
  let vs := (ratValues cells).mergeSort (· ≤ ·)
  match vs.length with
  | 0 => none
  | n + 1 =>
    let pos := p * (n : Rat)
    let i := pos.floor.toNat
    let frac := pos - (pos.floor : Rat)
    some (vs.getD i 0 + frac * (vs.getD (i + 1) (vs.getD i 0) - vs.getD i 0))

/-- `Series.var(ddof=1)` (sample variance); `none` when fewer than two
non-missing values exist — the case where pandas' `std()` is `NaN`. -/
def seriesVarSample (cells : List Cell) : Option Rat :=
  let vs := ratValues cells
  match vs.length with
  | 0 => none
  | 1 => none
  | n + 2 =>
    let μ := vs.sum / ((n + 2 : Nat) : Rat)
    some ((vs.map fun x => (x - μ) ^ 2).sum / ((n + 1 : Nat) : Rat))

/-- Rational approximation of `Real.sqrt`, used only to model the irrational
z-score clip bounds `mean ± threshold·std`; no verified claim depends on the
approximation error. -/
def approxSqrt (q : Rat) : Rat :=
  if q ≤ 0 then 0
  else (Nat.sqrt (q.num.toNat * q.den * 10 ^ 24) : Rat) / ((q.den : Rat) * 10 ^ 12)

/-- `Series.mode(dropna=True)` resolved to one value: the most frequent
non-missing value, first-seen winning ties (the tie order the spec
documents). `none` for an all-missing column. -/
def seriesMode (cells : List Cell) : Option Cell :=
  let vs := cells.filter (· ≠ Cell.null)
  let counted := vs.map fun v => (v, (vs.filter (· = v)).length)
  match counted.foldl
      (fun best p =>
        match best with
        | none => some p
        | some b => if p.2 > b.2 then some p else some b)
      none with
  | some (v, _) => some v
  | none => none

/-! ### The transformation pipeline (`CSVCleaner.formatting`,
`Backend/Functions/csv_cleaner.py:140-343`) -/

/-- One job descriptor: the typed view of the `mapping` dicts the pipeline
consumes (`m.get(...)`; absent keys are `none`).  The spec calls this shape
`TransformationJob`. -/
structure Job where
  Column     : List String := []
  trans_type : Option String := none
  decimals   : Option Int := none
  format     : Option String := none
  factor     : Option Rat := none
  operation  : Option String := none
  strategy   : Option String := none
  fill_value : Option Cell := none
  method     : Option String := none
  replace    : Option String := none
  threshold  : Option Rat := none
deriving Repr

/-- `_column_indices` (csv_cleaner.py:143-157): every position whose label
equals `column` (pandas `get_loc` yields all matches under duplicate labels). -/
def colIndices (names : List String) (column : String) : List Nat :=
  (List.range names.length).filter fun i => names.getD i "" = column

/-- Column `i` of the frame, read off the rows. -/
def getColCells (df : DataFrame) (i : Nat) : List Cell :=
  df.rows.map fun r => r.getD i Cell.null

/-- Write the cells `cs` back into column `i`. -/
def setColCells (df : DataFrame) (i : Nat) (cs : List Cell) : DataFrame :=
  { df with rows := df.rows.zipWith (fun r c => r.set i c) cs }

/-- `_update_column` (csv_cleaner.py:159-171): run the column transform on
every position labelled `column`. -/
def updateColumn (df : DataFrame) (column : String)
    (t : List Cell → Except String (List Cell)) : Except String DataFrame :=
  (colIndices df.names column).foldlM
    (fun acc idx => do
      let transformed ← t (getColCells acc idx)
      pure (setColCells acc idx transformed))
    df

/-- The `for col in cols: if col in df.columns: _update_column(col, …)`
pattern shared by every job branch. -/
def applyToCols (df : DataFrame) (cols : List String)
    (t : List Cell → Except String (List Cell)) : Except String DataFrame :=
  cols.foldlM
    (fun acc col => if col ∈ acc.names then updateColumn acc col t else pure acc)
    df

/-- `_str_transform` (csv_cleaner.py:180-184): `astype(str)`, upper, strip,
replace spaces with `_`. -/
def strTransform (cells : List Cell) : Except String (List Cell) :=
  .ok <| cells.map fun c =>
    let s := pyUpperStr (cellToPyStr c)
    let s := pyStrip s
    Cell.text ⟨s.data.map fun ch => if ch = ' ' then '_' else ch⟩

/-- `_int_transform` (csv_cleaner.py:191-192): `to_numeric(errors="coerce")`
then `astype("Int64")`, which raises on floats with a fractional part. -/
def intTransform (cells : List Cell) : Except String (List Cell) :=
  let numeric := cells.map toNumericCell
  if numeric.all fun c => (match c with | .num q => q.den = 1 | _ => true) then
    .ok <| numeric.map fun c =>
      match c with
      | .num q => .int q.num
      | c => c
  else .error "TypeError: cannot safely cast non-equivalent values to Int64"

/-- `_float_transform` (csv_cleaner.py:200-201): `to_numeric` then
`round(decimals)`. -/
def floatTransform (decimals : Int) (cells : List Cell) : Except String (List Cell) :=
  .ok <| cells.map fun c =>
    match toNumericCell c with
    | .int n => .num (roundHalfEven decimals (n : Rat))
    | .num q => .num (roundHalfEven decimals q)
    | _ => .null

/-- `series.astype("boolean")` (csv_cleaner.py:208): booleans and `0`/`1`
numerics convert, other present values raise `TypeError`. -/
def boolTransform (cells : List Cell) : Except String (List Cell) :=
  cells.mapM fun c =>
    match c with
    | .null => .ok Cell.null
    | .bool b => .ok (Cell.bool b)
    | .int n =>
      if n = 0 then .ok (Cell.bool false)
      else if n = 1 then .ok (Cell.bool true)
      else .error "TypeError: Need to pass bool-like values"
    | .num q =>
      if q = 0 then .ok (Cell.bool false)
      else if q = 1 then .ok (Cell.bool true)
      else .error "TypeError: Need to pass bool-like values"
    | _ => .error "TypeError: Need to pass bool-like values"

/-- `_percent_transform` (csv_cleaner.py:214-217): `to_numeric * 100`,
round, then render as `"<value>%"` text, missing staying missing. -/
def percentTransform (decimals : Int) (cells : List Cell) : Except String (List Cell) :=
  .ok <| cells.map fun c =>
    match cellRat? (toNumericCell c) with
    | some q => Cell.text (pyFloatStr (roundHalfEven decimals (q * 100)) ++ "%")
    | none => Cell.null

/-- Modelled behaviour of `dateutil.parser.parse(str(val), dayfirst=False,
yearfirst=False)` (csv_cleaner.py:224-229): the `YYYY-MM-DD` and `MM/DD/YYYY`
shapes are recognised (month before day, as the month-first default dictates);
dateutil's wider permissive grammar is out of scope and parses to `NaT` here.
No verified claim depends on this branch. -/
def parsePyDate (s : String) : Option (Nat × Nat × Nat) :=
  let l := pyStripList s.data
  match splitOnChar '-' l with
  | [y, m, d] =>
    if allDigits y ∧ allDigits m ∧ allDigits d ∧ y.length = 4 then
      some (digitsToNat y, digitsToNat m, digitsToNat d)
    else none
  | _ =>
    match splitOnChar '/' l with
    | [m, d, y] =>
      if allDigits y ∧ allDigits m ∧ allDigits d ∧ y.length = 4 then
        some (digitsToNat y, digitsToNat m, digitsToNat d)
      else none
    | _ => none

/-- Zero-padded decimal rendering. -/
def padNat (width n : Nat) : String :=
  let ds := (toString n).data
  String.mk (List.replicate (width - ds.length) '0' ++ ds)

/-- `_date_transform` (csv_cleaner.py:233-242): parse every value, then
`strftime` with the selected pattern; an unrecognised pattern returns the
parsed datetimes themselves. -/
def dateTransform (fmt : String) (cells : List Cell) : Except String (List Cell) :=
  .ok <| cells.map fun c =>
    match parsePyDate (cellToPyStr c) with
    | none => .null
    | some (y, m, d) =>
      if fmt = "YYYY-MM-DD" then .text (padNat 4 y ++ "-" ++ padNat 2 m ++ "-" ++ padNat 2 d)
      else if fmt = "DD_MM_YY" then .text (padNat 2 d ++ "-" ++ padNat 2 m ++ "-" ++ padNat 2 (y % 100))
      else if fmt = "MM-YY" then .text (padNat 2 m ++ "-" ++ padNat 2 (y % 100))
      else .date y m d

/-- `_scale_transform` (csv_cleaner.py:251-261): `to_numeric`, then the
selected arithmetic with `factor`.  Division by zero produces IEEE
infinities in pandas; the model abstracts those to `Null`.  An operation
outside `{mul, div, add, sub}` returns the coerced series unchanged. -/
def scaleTransform (operation : String) (factor : Rat) (cells : List Cell) :
    Except String (List Cell) :=
  .ok <| cells.map fun c =>
    match cellRat? (toNumericCell c) with
    | none => .null
    | some q =>
      if operation = "mul" then .num (q * factor)
      else if operation = "div" then (if factor = 0 then .null else .num (q / factor))
      else if operation = "add" then .num (q + factor)
      else if operation = "sub" then .num (q - factor)
      else .num q

/-- `_missing_transform` (csv_cleaner.py:271-287).  `mean`/`median` coerce the
column numerically and fill missing entries with the statistic; `mode` fills
with the modal value; `constant` is `series.fillna(fill_value)` — it touches
only canonical missing cells, never marker strings; `nan` is `fillna(pd.NA)`,
a no-op on this model; an unknown or absent strategy returns the series. -/
def missingTransform (strategy : Option String) (fill_value : Option Cell)
    (cells : List Cell) : Except String (List Cell) :=
  if strategy = some "mean" then
    let numeric := cells.map toNumericCell
    match seriesMean numeric with
    | some μ => .ok <| numeric.map fun c => if c = .null then .num μ else c
    | none => .ok numeric
  else if strategy = some "median" then
    let numeric := cells.map toNumericCell
    match seriesMedian numeric with
    | some μ => .ok <| numeric.map fun c => if c = .null then .num μ else c
    | none => .ok numeric
  else if strategy = some "mode" then
    match seriesMode cells with
    | some v => .ok <| cells.map fun c => if c = .null then v else c
    | none => .ok cells
  else if strategy = some "constant" then
    match fill_value with
    | none => .error "ValueError: must specify a fill value or method"
    | some v => .ok <| cells.map fun c => if c = .null then v else c
  else if strategy = some "nan" then
    .ok <| cells.map fun c => if c = .null then Cell.null else c
  else .ok cells

/-- `_outlier_transform` (csv_cleaner.py:297-338).  The z-score flag test
`|x - mean| > threshold·std` is computed exactly through its square; the
irrational clip bounds `mean ± threshold·std` are the one place a rational
square-root approximation enters (no verified claim touches them). -/
def outlierTransform (method replace : String) (threshold : Rat)
    (cells : List Cell) : Except String (List Cell) :=
  let numeric := cells.map toNumericCell
  if (ratValues numeric).length = 0 then .ok numeric
  else
    let flagged : (Rat → Bool) × Option Rat × Option Rat :=
      if method = "zscore" then
        match seriesMean numeric, seriesVarSample numeric with
        | some μ, some v =>
          if v = 0 then ((fun _ => false), none, none)
          else
            (fun x =>
               if threshold < 0 then true
               else decide ((x - μ) ^ 2 > threshold ^ 2 * v),
             some (μ - threshold * approxSqrt v),
             some (μ + threshold * approxSqrt v))
        | _, _ => ((fun _ => false), none, none)
      else if method = "iqr" then
        match seriesQuantile numeric (1 / 4), seriesQuantile numeric (3 / 4) with
        | some q1, some q3 =>
          let iqr := q3 - q1
          (fun x => decide (x < q1 - threshold * iqr ∨ x > q3 + threshold * iqr),
           some (q1 - threshold * iqr), some (q3 + threshold * iqr))
        | _, _ => ((fun _ => false), none, none)
      else ((fun _ => false), none, none)
    let mask := flagged.1
    if (ratValues numeric).all fun x => !mask x then .ok numeric
    else
      let substFor : Rat → Cell :=
        if replace = "mean" then
          fun _ => match seriesMean numeric with | some μ => .num μ | none => .null
        else if replace = "median" then
          fun _ => match seriesMedian numeric with | some μ => .num μ | none => .null
        else if replace = "clip" then
          fun x =>
            match flagged.2.1, flagged.2.2 with
            | some lo, some hi => .num (min (max x lo) hi)
            | _, _ => .num x
        else if replace = "nan" then fun _ => .null
        else fun x => .num x
      .ok <| numeric.map fun c =>
        match cellRat? c with
        | some x => if mask x then substFor x else c
        | none => c

/-- Dispatch of one `mapping` entry, the `elif` chain of `CSVCleaner.formatting`
(csv_cleaner.py:173-340) with each branch's parameter defaults.  A
`trans_type` outside the nine known discriminators matches no branch and
leaves the frame untouched — the chain has no `else`. -/
def jobStep (df : DataFrame) (m : Job) : Except String DataFrame :=
  if m.trans_type = some "str" then applyToCols df m.Column strTransform
  else if m.trans_type = some "int" then applyToCols df m.Column intTransform
  else if m.trans_type = some "float" then
    applyToCols df m.Column (floatTransform (m.decimals.getD 4))
  else if m.trans_type = some "bool" then applyToCols df m.Column boolTransform
  else if m.trans_type = some "percent" then
    applyToCols df m.Column (percentTransform (m.decimals.getD 2))
  else if m.trans_type = some "date" then
    applyToCols df m.Column (dateTransform (m.format.getD "YYYY-MM-DD"))
  else if m.trans_type = some "scale" then
    applyToCols df m.Column (scaleTransform (m.operation.getD "mul") (m.factor.getD 1))
  else if m.trans_type = some "missing" then
    applyToCols df m.Column (missingTransform m.strategy m.fill_value)
  else if m.trans_type = some "outlier" then
    applyToCols df m.Column
      (outlierTransform (m.method.getD "zscore") (m.replace.getD "nan") (m.threshold.getD 3))
  else .ok df

/-- The closing `df.astype(object).where(df.notna(), float("nan"))`
(csv_cleaner.py:342): every missing scalar is re-canonicalised to `NaN`,
which the model writes cell by cell. -/
def finalizeFrame (df : DataFrame) : DataFrame :=
  { df with rows := df.rows.map fun r => r.map fun c => if c = Cell.null then Cell.null else c }

/-- Embedding of `CSVCleaner.formatting` (csv_cleaner.py:140-343): start from
a copy of the frame, run the jobs strictly in list order (an exception in a
branch propagates), then re-canonicalise missing values. -/
def formatting (df : DataFrame) (mapping : List Job) : Except String DataFrame :=
  (mapping.foldlM jobStep df).map finalizeFrame

/-! ### Encoding/format resolver
(`CSVProcessor.read_with_encoding_fallback`, csv_processor.py:52-107) -/

/-- Is `b` a UTF-8 continuation byte? -/
def contByte (b : Nat) : Bool := decide (0x80 ≤ b ∧ b < 0xC0)

/-- Strict UTF-8 decoding of a byte sequence (CPython's `utf-8` codec):
overlong encodings, surrogates and out-of-range scalars are rejected. -/
def utf8Decode : List Nat → Option (List Char)
  | [] => some []
  | b :: rest =>
    if b < 0x80 then (utf8Decode rest).map (Char.ofNat b :: ·)
    else if 0xC2 ≤ b ∧ b < 0xE0 then
      match rest with
      | b2 :: rest2 =>
        if contByte b2 then
          (utf8Decode rest2).map (Char.ofNat ((b - 0xC0) * 64 + (b2 - 0x80)) :: ·)
        else none
      | [] => none
    else if 0xE0 ≤ b ∧ b < 0xF0 then
      match rest with
      | b2 :: b3 :: rest3 =>
        if contByte b2 ∧ contByte b3 ∧ (b = 0xE0 → 0xA0 ≤ b2) ∧ (b = 0xED → b2 < 0xA0) then
          (utf8Decode rest3).map
            (Char.ofNat ((b - 0xE0) * 4096 + (b2 - 0x80) * 64 + (b3 - 0x80)) :: ·)
        else none
      | _ => none
    else if 0xF0 ≤ b ∧ b < 0xF5 then
      match rest with
      | b2 :: b3 :: b4 :: rest4 =>
        if contByte b2 ∧ contByte b3 ∧ contByte b4 ∧
           (b = 0xF0 → 0x90 ≤ b2) ∧ (b = 0xF4 → b2 < 0x90) then
          (utf8Decode rest4).map
            (Char.ofNat ((b - 0xF0) * 262144 + (b2 - 0x80) * 4096 + (b3 - 0x80) * 64 + (b4 - 0x80)) :: ·)
        else none
      | _ => none
    else none

/-- The `utf-8` codec as a string decoder. -/
def utf8DecodeStr (b : List Nat) : Option String :=
  (utf8Decode b).map String.mk

/-- The `utf-8-sig` codec: strip one leading BOM if present, then UTF-8. -/
def utf8SigDecodeStr (b : List Nat) : Option String :=
  match b with
  | 0xEF :: 0xBB :: 0xBF :: rest => (utf8Decode rest).map String.mk
  | _ => (utf8Decode b).map String.mk

/-- Model of a double-byte CJK codec (`gbk`, `gb2312`, `big5`): ASCII bytes
pass through; a lead byte in `[leadLo, leadHi]` must be followed by a trail
byte in `[trailLo, trailHi]` (never `0x7F`) and decodes to an abstract
non-ASCII scalar `0x10000 + lead·256 + trail` — the codecs' huge mapping
tables are abstracted to this injective placeholder, which no verified claim
inspects; any other byte fails, as CPython's strict mode does. -/
def dbcsDecode (leadLo leadHi trailLo trailHi : Nat) : List Nat → Option (List Char)
  | [] => some []
  | b :: rest =>
    if b < 0x80 then (dbcsDecode leadLo leadHi trailLo trailHi rest).map (Char.ofNat b :: ·)
    else if leadLo ≤ b ∧ b ≤ leadHi then
      match rest with
      | t :: rest2 =>
        if trailLo ≤ t ∧ t ≤ trailHi ∧ t ≠ 0x7F then
          (dbcsDecode leadLo leadHi trailLo trailHi rest2).map
            (Char.ofNat (0x10000 + b * 256 + t) :: ·)
        else none
      | [] => none
    else none

/-- Model of the `shift_jis` codec: ASCII passes, `0xA1–0xDF` are single-byte
katakana (abstract scalars), `0x81–0x9F`/`0xE0–0xEF` lead a double-byte pair. -/
def sjisDecode : List Nat → Option (List Char)
  | [] => some []
  | b :: rest =>
    if b < 0x80 then (sjisDecode rest).map (Char.ofNat b :: ·)
    else if 0xA1 ≤ b ∧ b ≤ 0xDF then (sjisDecode rest).map (Char.ofNat (0xFF61 + (b - 0xA1)) :: ·)
    else if (0x81 ≤ b ∧ b ≤ 0x9F) ∨ (0xE0 ≤ b ∧ b ≤ 0xEF) then
      match rest with
      | t :: rest2 =>
        if (0x40 ≤ t ∧ t ≤ 0xFC) ∧ t ≠ 0x7F then
          (sjisDecode rest2).map (Char.ofNat (0x10000 + b * 256 + t) :: ·)
        else none
      | [] => none
    else none

/-- Model of the `cp1252` codec: single-byte, but the five unassigned bytes
fail; assigned non-ASCII bytes map to an abstract scalar. -/
def cp1252Decode (l : List Nat) : Option (List Char) :=
  if l.all fun b => b < 256 ∧ b ≠ 0x81 ∧ b ≠ 0x8D ∧ b ≠ 0x8F ∧ b ≠ 0x90 ∧ b ≠ 0x9D then
    some (l.map Char.ofNat)
  else none

/-- The `latin1` codec: total and byte-preserving — every byte below 256 is
its own code point, so decoding cannot fail. -/
def latin1Decode (l : List Nat) : List Char :=
  l.map Char.ofNat

/-- The default-NA tokens of `pd.read_csv` (the subset over ASCII text). -/
def pandasNATokens : List String :=
  ["", "NA", "N/A", "NaN", "nan", "NULL", "null", "None", "n/a", "<NA>", "#N/A", "#NA"]

/-- One parsed CSV field under pandas' default conversions: default-NA tokens
become `NaN`, numeric text becomes a number, the rest stays text. -/
def parseField (s : String) : Cell :=
  if s ∈ pandasNATokens then .null
  else
    match parsePyNumber s with
    | some q => if q.den = 1 then .int q.num else .num q
    | none => .text s

/-- Model of `pd.read_csv` with default parameters on decoded text: split
into lines (blank lines skipped, as `skip_blank_lines=True` does), first line
the header — none at all raises `EmptyDataError`; comma-split each data row —
wider than the header raises `ParserError`, narrower is padded with `NaN`.
Quoting and implicit-index inference are not modelled; no verified claim
depends on them. -/
def parseCSV (text : String) : Except String DataFrame :=
  let lines := (splitOnChar '\n' text.data).map fun l =>
    if l.getLast? = some '\r' then l.dropLast else l
  let lines := lines.filter (· ≠ [])
  match lines with
  | [] => .error "EmptyDataError: No columns to parse from file"
  | header :: dataLines =>
    let names := (splitOnChar ',' header).map String.mk
    if dataLines.all fun l => (splitOnChar ',' l).length ≤ names.length then
      .ok ⟨names, dataLines.map fun l =>
        let fs := (splitOnChar ',' l).map fun f => parseField (String.mk f)
        fs ++ List.replicate (names.length - fs.length) Cell.null⟩
    else .error "ParserError: Error tokenizing data"

/-- One guarded attempt of the cascade: decode, then parse; any failure is
caught by the Python `except Exception: continue`. -/
def tryRead (codec : List Nat → Option String) (b : List Nat) : Except String DataFrame :=
  match codec b with
  | none => .error "UnicodeDecodeError"
  | some text => parseCSV text

/-- Embedding of `CSVProcessor.read_with_encoding_fallback`
(csv_processor.py:52-107) in its claim-relevant configuration
(`nrows=None`, `sep=None`, `encoding=None`): the guarded attempts
utf-8, utf-8-sig, gbk, gb2312, big5, shift_jis, cp1252 in that order, then an
unguarded final `pd.read_csv(..., encoding="latin1")` — transcribed
branch-for-branch from the Python control flow. -/
def readWithEncodingFallback (b : List Nat) : Except String DataFrame :=
  match tryRead utf8DecodeStr b with
  | .ok df => .ok df
  | .error _ =>
  match tryRead utf8SigDecodeStr b with
  | .ok df => .ok df
  | .error _ =>
  match tryRead (fun l => (dbcsDecode 0x81 0xFE 0x40 0xFE l).map String.mk) b with
  | .ok df => .ok df
  | .error _ =>
  match tryRead (fun l => (dbcsDecode 0xA1 0xF7 0xA1 0xFE l).map String.mk) b with
  | .ok df => .ok df
  | .error _ =>
  match tryRead (fun l => (dbcsDecode 0x81 0xFE 0x40 0xFE l).map String.mk) b with
  | .ok df => .ok df
  | .error _ =>
  match tryRead (fun l => (sjisDecode l).map String.mk) b with
  | .ok df => .ok df
  | .error _ =>
  match tryRead (fun l => (cp1252Decode l).map String.mk) b with
  | .ok df => .ok df
  | .error _ => parseCSV (String.mk (latin1Decode b))

/-- The ordered guarded attempts of the cascade (everything before the
unguarded latin1 fallback). -/
def encodingAttempts : List (List Nat → Option String) :=
  [utf8DecodeStr, utf8SigDecodeStr,
   fun l => (dbcsDecode 0x81 0xFE 0x40 0xFE l).map String.mk,
   fun l => (dbcsDecode 0xA1 0xF7 0xA1 0xFE l).map String.mk,
   fun l => (dbcsDecode 0x81 0xFE 0x40 0xFE l).map String.mk,
   fun l => (sjisDecode l).map String.mk,
   fun l => (cp1252Decode l).map String.mk]

/-- First-success semantics over an attempt list, falling through to the
unguarded latin1 parse: the shape the spec describes ("taking the first one
that decodes and parses"). -/
def cascadeRead (attempts : List (List Nat → Option String)) (b : List Nat) :
    Except String DataFrame :=
  match attempts with
  | [] => parseCSV (String.mk (latin1Decode b))
  | codec :: rest =>
    match tryRead codec b with
    | .ok df => .ok df
    | .error _ => cascadeRead rest b

/-! ### Python scalar comparison (the `!=` / `>` used by the diff engine) -/

/-- Python `==` between two cells: numbers and booleans compare numerically
across types (`True == 1`), text compares as text, values of unrelated types
are simply unequal, and `NaN` equals nothing (including itself). -/
def pyEq : Cell → Cell → Bool
  | .int a, .int b => a == b
  | .int a, .num q => (a : Rat) == q
  | .num q, .int a => q == (a : Rat)
  | .num a, .num b => a == b
  | .bool a, .bool b => a == b
  | .bool a, .int b => (if a then (1 : Int) else 0) == b
  | .int a, .bool b => a == (if b then (1 : Int) else 0)
  | .bool a, .num b => (if a then (1 : Rat) else 0) == b
  | .num a, .bool b => a == (if b then (1 : Rat) else 0)
  | .text a, .text b => a == b
  | .date y m d, .date y' m' d' => y == y' && m == m' && d == d'
  | _, _ => false

/-- Python `a > b` between two cells: numeric across number/boolean types,
lexicographic between texts, `none` (a raised `TypeError`) between unordered
types such as text vs number — the diff engine never guards this comparison.
Missing operands are also `none`; the call sites reach the comparison only
behind a `pd.notna` guard. -/
def pyGt : Cell → Cell → Option Bool
  | .int a, .int b => some (b < a)
  | .int a, .num q => some (q < (a : Rat))
  | .num q, .int a => some ((a : Rat) < q)
  | .num a, .num b => some (b < a)
  | .bool a, .bool b => some (b < a)
  | .bool a, .int b => some (b < (if a then 1 else 0))
  | .int a, .bool b => some ((if b then (1 : Int) else 0) < a)
  | .bool a, .num b => some (b < (if a then 1 else 0))
  | .num a, .bool b => some ((if b then (1 : Rat) else 0) < a)
  | .text a, .text b => some (b < a)
  | .date y m d, .date y' m' d' =>
    some (decide (y' < y ∨ (y' = y ∧ (m' < m ∨ (m' = m ∧ d' < d)))))
  | _, _ => none

/-! ### Diff engine (`CSVProcessor.write_diff_report`,
csv_processor.py:371-434) -/

/-- One entry of the diff `mapping` list (`m.get(...)` fields with their
defaults; `columns` is `m.get('columns') or []`). -/
structure DiffMapping where
  sheet_suffix1 : String := "_1"
  sheet_suffix2 : String := "_2"
  out_file : String := ""
  columns : List String := []
deriving Repr

/-- One record of the `diffs` list (csv_processor.py:421-427).  `Row` is the
spreadsheet row `r + 2` the code stores; the `Old`/`New` fields carry the
sheet-suffix labels in their dictionary keys. -/
structure DiffRecord where
  Row : Nat
  Column : String
  Old : Cell
  New : Cell
  Change : String
deriving DecidableEq, Repr

/-- One sheet of the output workbook: its tab name and tabular content. -/
structure Sheet where
  name : String
  frame : DataFrame
deriving DecidableEq, Repr

/-- First position of a label (`df.columns.get_loc` under unique labels). -/
def colIdx? (names : List String) (c : String) : Option Nat :=
  names.findIdx? (· = c)

/-- `df.iloc[r][…]` cell access. -/
def cellAt (df : DataFrame) (r i : Nat) : Cell :=
  (df.rows.getD r []).getD i Cell.null

/-- Target-column selection shared by both diff modes
(csv_processor.py:388-404): an explicit selection is deduplicated in order
and must exist in both frames; otherwise the comparable columns are the
left-frame columns also present on the right, in left order. -/
def diffTargetCols (df1 df2 : DataFrame) (selected : List String) :
    Except String (List String) :=
  if selected ≠ [] then
    let present := selected.filter fun col => col ∈ df1.names ∧ col ∈ df2.names
    let missing := selected.filter fun col => ¬(col ∈ df1.names ∧ col ∈ df2.names)
    if missing ≠ [] then .error "columns not found in both files"
    else .ok (present.foldl (fun acc col => if col ∈ acc then acc else acc ++ [col]) [])
  else .ok (df1.names.filter (· ∈ df2.names))

/-- The inner loop of the report mode for one target column
(csv_processor.py:406-427): rows `0 … len(df1)-1`, a record appended whenever
both sides are non-missing and unequal, direction by `val2 > val1`. -/
def diffRecordsForCol (df1 df2 : DataFrame) (col : String) :
    Except String (List DiffRecord) :=
  let i1 := (colIdx? df1.names col).getD 0
  let i2 := (colIdx? df2.names col).getD 0
  (List.range df1.rows.length).foldlM
    (fun acc r =>
      if r < df2.rows.length then
        let val1 := cellAt df1 r i1
        let val2 := cellAt df2 r i2
        if val1 ≠ Cell.null ∧ val2 ≠ Cell.null ∧ ¬pyEq val1 val2 then
          match pyGt val2 val1 with
          | none => .error "TypeError: unorderable comparison"
          | some gt =>
            .ok (acc ++ [⟨r + 2, col, val1, val2, if gt then "Up" else "Down"⟩])
        else .ok acc
      else .error "IndexError: single positional indexer is out-of-bounds")
    []

/-- The `Diff Summary` sheet content built from the records
(csv_processor.py:431-434). -/
def diffSummaryFrame (m : DiffMapping) (diffs : List DiffRecord) : DataFrame :=
  ⟨["Row", "Column", "Old" ++ m.sheet_suffix1, "New" ++ m.sheet_suffix2, "Change"],
   diffs.map fun d => [.int d.Row, .text d.Column, d.Old, d.New, .text d.Change]⟩

/-- Embedding of one mapping entry of `CSVProcessor.write_diff_report`
(csv_processor.py:371-434): write both frames as sheets, scan
column-then-row for differing non-missing cell pairs, and append a
`Diff Summary` sheet exactly when any record exists.  The returned value is
the final workbook sheet list plus the `diffs` list. -/
def writeDiffReport (df1 df2 : DataFrame) (m : DiffMapping) :
    Except String (List Sheet × List DiffRecord) := do
  let target ← diffTargetCols df1 df2 m.columns
  if target = [] then .error "no comparable columns available for diff report"
  else do
    let diffs ← target.foldlM
      (fun acc col => do
        let rs ← diffRecordsForCol df1 df2 col
        pure (acc ++ rs))
      []
    let base : List Sheet :=
      [⟨"DataFrame_" ++ m.sheet_suffix1, df1⟩, ⟨"DataFrame_" ++ m.sheet_suffix2, df2⟩]
    pure (if diffs ≠ [] then base ++ [⟨"Diff Summary", diffSummaryFrame m diffs⟩] else base,
          diffs)

/-! ### Combine engine (`combine_df`, csv_handling.py:282-315) -/

/-- One entry of the combine `mapping`.  `on_keys` carries the dict's
`"on"` entry (`on` is a reserved word here). -/
structure CombineMapping where
  method : String
  on_keys : Option (List String) := none
deriving Repr

/-- The `a[col] = None` creation of an absent join key
(csv_handling.py:305-309): pandas stores `None` objects, and the
`astype(str)` that immediately follows on every key column renders `None`
as the text `"None"` (a pre-existing `NaN` key renders `"nan"` instead).
Nothing reads the created column between the assignment and that cast, so
the model stores the eventual `"None"` rendering directly. -/
def addNoneKeyCol (df : DataFrame) (c : String) : DataFrame :=
  ⟨df.names ++ [c], df.rows.map (· ++ [Cell.text "None"])⟩

/-- `a[c] = a[c].astype(str).str.strip()` on every column labelled `c`. -/
def strKeyCol (df : DataFrame) (c : String) : DataFrame :=
  (colIndices df.names c).foldl
    (fun acc i => setColCells acc i ((getColCells acc i).map fun v => Cell.text (pyStrip (cellToPyStr v))))
    df

/-- Inner equality-merge on `on_cols` with suffixes `("_L", "_R")`, pandas
semantics: result columns are the left columns (keys in place, colliding
non-key names suffixed `_L`) followed by the right non-key columns (colliding
names suffixed `_R`); result rows are the key-matching pairs in left-major,
right-minor order. -/
def mergeFrames (a b : DataFrame) (on_cols : List String) : DataFrame :=
  let leftNames := a.names.map fun n => if n ∉ on_cols ∧ n ∈ b.names then n ++ "_L" else n
  let rightKeepIdx := (List.range b.names.length).filter fun i => b.names.getD i "" ∉ on_cols
  let rightNames := rightKeepIdx.map fun i =>
    let n := b.names.getD i ""
    if n ∈ a.names then n ++ "_R" else n
  let keyIdx := on_cols.map fun c => ((colIdx? a.names c).getD 0, (colIdx? b.names c).getD 0)
  ⟨leftNames ++ rightNames,
   a.rows.flatMap fun ra =>
     b.rows.filterMap fun rb =>
       if keyIdx.all fun p => ra.getD p.1 Cell.null == rb.getD p.2 Cell.null then
         some (ra ++ rightKeepIdx.map fun i => rb.getD i Cell.null)
       else none⟩

/-- Embedding of `combine_df` (csv_handling.py:282-315).  `concat`
upper-cases stripped labels on both sides and stacks rows over the column
union; `merge` requires `on`, creates absent key columns (`None` values,
which the key cast renders `"None"` — see `addNoneKeyCol`), trims key
values as text and inner-joins.  Any other method falls off the `elif`
chain — the Python returns `None`, modelled as an error outcome. -/
def combineDf (df1 df2 : DataFrame) (mapping : List CombineMapping) :
    Except String DataFrame :=
  match mapping with
  | [] => .error "IndexError: list index out of range"
  | m0 :: _ =>
    let method := pyLowerStr m0.method
    if method = "concat" then
      let a : DataFrame := ⟨df1.names.map fun c => pyUpperStr (pyStrip c), df1.rows⟩
      let b : DataFrame := ⟨df2.names.map fun c => pyUpperStr (pyStrip c), df2.rows⟩
      let names := a.names ++ b.names.filter (· ∉ a.names)
      let rowOf : DataFrame → List Cell → List Cell := fun src r =>
        names.map fun n =>
          match colIdx? src.names n with
          | some i => r.getD i Cell.null
          | none => Cell.null
      .ok ⟨names, a.rows.map (rowOf a) ++ b.rows.map (rowOf b)⟩
    else if method = "merge" then
      match m0.on_keys with
      | none => .error "ValueError: merge requires join keys"
      | some on_cols =>
        let a := on_cols.foldl (fun acc c => if c ∈ acc.names then acc else addNoneKeyCol acc c) df1
        let b := on_cols.foldl (fun acc c => if c ∈ acc.names then acc else addNoneKeyCol acc c) df2
        let a := on_cols.foldl strKeyCol a
        let b := on_cols.foldl strKeyCol b
        .ok (mergeFrames a b on_cols)
    else .error "TypeError: combine_df returned None"

/-! ### Export (`export_data`, csv_handling.py:317-343) -/

/-- UTF-8 encoding of one scalar. -/
def utf8EncodeChar (c : Char) : List Nat :=
  let n := c.toNat
  if n < 0x80 then [n]
  else if n < 0x800 then [0xC0 + n / 64, 0x80 + n % 64]
  else if n < 0x10000 then [0xE0 + n / 4096, 0x80 + n / 64 % 64, 0x80 + n % 64]
  else [0xF0 + n / 262144, 0x80 + n / 4096 % 64, 0x80 + n / 64 % 64, 0x80 + n % 64]

/-- UTF-8 encoding of a string (the byte stream `encoding="utf-8"` writes;
`utf-8-sig` would prepend the BOM bytes `EF BB BF`, `utf-8` does not). -/
def utf8Encode (s : String) : List Nat :=
  s.data.flatMap utf8EncodeChar

/-- One CSV field as `df.to_csv` renders it: missing cells become the empty
field, and a field containing the separator, a quote or a line break is
quoted with doubled inner quotes (QUOTE_MINIMAL). -/
def csvField (c : Cell) : String :=
  let s := match c with | .null => "" | c => cellToPyStr c
  if s.data.any fun ch => ch = ',' ∨ ch = '"' ∨ ch = '\n' ∨ ch = '\r' then
    "\"" ++ ⟨s.data.flatMap fun ch => if ch = '"' then ['"', '"'] else [ch]⟩ ++ "\""
  else s

/-- One output line: comma-joined fields plus the line terminator. -/
def csvLine (fields : List String) : String :=
  String.intercalate "," fields ++ "\n"

/-- `df.to_csv(index=False)` text: header line then one line per row, each
terminated by a newline. -/
def csvRender (df : DataFrame) : String :=
  csvLine (df.names.map fun n => csvField (.text n)) ++
  String.join (df.rows.map fun r => csvLine (r.map csvField))

/-- The artifact `export_data` writes: a CSV byte stream, an Excel sheet, or
a JSON document. -/
inductive ExportArtifact where
  | csv (bytes : List Nat)
  | excel (sheet : DataFrame)
  | json (records : List (List (String × Cell)))
deriving DecidableEq, Repr

/-- `df.to_json(orient="records")`: the ordered list of row objects, each
keyed by the column labels in column order. -/
def jsonRecords (df : DataFrame) : List (List (String × Cell)) :=
  df.rows.map fun r => df.names.zipWith (fun n i => (n, r.getD i Cell.null)) (List.range df.names.length)

/-- Python `str.endswith` (list-level: the characters of `post` close `s`). -/
def strEndsWith (s post : String) : Bool :=
  decide (post.data.length ≤ s.data.length) &&
  decide (post.data = s.data.drop (s.data.length - post.data.length))

/-- Embedding of `export_data` (csv_handling.py:317-343): infer the format
from the lower-cased filename extension when none is given (unrecognised
extensions raise `ValueError`), then write CSV as UTF-8 (the BOM-less
`utf-8` codec), Excel via openpyxl, or JSON with the `records` orientation. -/
def exportData (df : DataFrame) (filename : String) (file_format : Option String) :
    Except String ExportArtifact := do
  let fmt ←
    match file_format with
    | some f => Except.ok f
    | none =>
      let low := pyLowerStr filename
      if strEndsWith low ".csv" then Except.ok "csv"
      else if strEndsWith low ".xls" ∨ strEndsWith low ".xlsx" then Except.ok "excel"
      else if strEndsWith low ".json" then Except.ok "json"
      else Except.error "ValueError: cannot infer file format"
  if fmt = "csv" then .ok (.csv (utf8Encode (csvRender df)))
  else if fmt = "excel" then .ok (.excel df)
  else if fmt = "json" then .ok (.json (jsonRecords df))
  else .error "ValueError: unsupported file format"

/-! ### Cell cleaning and the mutation discipline of the pipeline stages -/

/-- The missing-marker replacement list of `clean_cell_values`
(csv_cleaner.py:115) — the spec's MissingMarker set without the Null tag. -/
def missingMarkers : List String :=
  ["", "NA", "N/A", "na", "-", "null", "None", "nan"]

/-- Is this cell missing in the spec's sense: the Null tag or a
missing-marker string? -/
def isMissingCell (c : Cell) : Bool :=
  match c with
  | .null => true
  | .text s => s ∈ missingMarkers
  | _ => false

/-- Embedding of `CSVCleaner.clean_cell_values` (csv_cleaner.py:84-118) with
its defaults: strip whitespace off string cells, then replace every
missing-marker value (of any column) by `NaN`. -/
def cleanCellValues (df : DataFrame) : DataFrame :=
  { df with
    rows := df.rows.map fun r => r.map fun c =>
      let c := match c with | .text s => Cell.text (pyStrip s) | c => c
      match c with
      | .text s => if s ∈ missingMarkers then Cell.null else .text s
      | c => c }

/-- State-passing view of `CSVCleaner.clean_column_names`: the pair is
(returned frame, the caller's frame object after the call).  The Python body
starts with `df = df.copy()` (csv_cleaner.py:35) and only ever assigns to the
copy, so the caller's object is untouched. -/
def cleanColumnNamesRun (df : DataFrame) (cols : Option (List String))
    (case : Option String) (strip_special : Bool) : DataFrame × DataFrame :=
  (cleanColumnNames df cols case strip_special, df)

/-- State-passing view of `CSVCleaner.clean_cell_values`: copies first
(csv_cleaner.py:102), `inplace=True` replacement happens on the copy only. -/
def cleanCellValuesRun (df : DataFrame) : DataFrame × DataFrame :=
  (cleanCellValues df, df)

/-- State-passing view of `CSVCleaner.formatting`: copies first
(`df = df.copy().astype(object)`, csv_cleaner.py:141), so the caller's frame
survives even a raising job. -/
def formattingRun (df : DataFrame) (mapping : List Job) :
    Except String DataFrame × DataFrame :=
  (formatting df mapping, df)

/-- State-passing view of the controller's `clean_column_name`
(csv_handling.py:72-85): the body ends with `df.columns = new_cols` on the
caller's object — no copy is taken — so the input frame is mutated to the
returned value. -/
def chCleanColumnNameRun (df : DataFrame) (cols : Option (List String)) :
    DataFrame × DataFrame :=
  (chCleanColumnName df cols, chCleanColumnName df cols)

/-! ## Shared lemmas -/

theorem toNat_ofNat_valid {n : Nat} (h : n < 0xd800) : (Char.ofNat n).toNat = n := by
  rw [Char.ofNat, dif_pos (Or.inl h)]
  simp [Char.ofNatAux, Char.toNat, UInt32.toNat]

theorem foldlM_ok {α β : Type} (g : α → β → α) :
    ∀ (l : List β) (f : α → β → Except String α) (init : α),
      (∀ acc b, b ∈ l → f acc b = .ok (g acc b)) →
      l.foldlM f init = .ok (l.foldl g init)
  | [], _, init, _ => rfl
  | b :: t, f, init, h => by
    rw [List.foldlM_cons, h init b (List.mem_cons_self b t), List.foldl_cons]
    exact foldlM_ok g t f (g init b) fun acc x hx => h acc x (List.mem_cons_of_mem b hx)

theorem foldlM_ok_id {α β : Type} (l : List β) (f : α → β → Except String α) (init : α)
    (h : ∀ acc b, b ∈ l → f acc b = .ok acc) : l.foldlM f init = .ok init := by
  have := foldlM_ok (fun acc _ => acc) l f init h
  rwa [List.foldl_fixed] at this

theorem getD_set (v d : Cell) : ∀ (r : List Cell) (i j : Nat),
    (r.set i v).getD j d = if i = j ∧ i < r.length then v else r.getD j d
  | [], i, j => by simp
  | c :: t, 0, 0 => by simp
  | c :: t, 0, j + 1 => by simp [List.set]
  | c :: t, i + 1, 0 => by simp [List.set]
  | c :: t, i + 1, j + 1 => by
    simp only [List.set, List.getD_cons_succ, List.length_cons]
    rw [getD_set v d t i j]
    by_cases h : i = j ∧ i < t.length
    · rw [if_pos h, if_pos (by omega)]
    · rw [if_neg h, if_neg (by omega)]

theorem set_getD_self : ∀ (r : List Cell) (i : Nat), r.set i (r.getD i Cell.null) = r
  | [], _ => rfl
  | _ :: _, 0 => rfl
  | c :: t, i + 1 => congrArg (c :: ·) (set_getD_self t i)

theorem setColCells_getColCells (df : DataFrame) (i : Nat) :
    setColCells df i (getColCells df i) = df := by
  unfold setColCells getColCells
  cases df with
  | mk names rows =>
    simp only [DataFrame.mk.injEq, true_and]
    induction rows with
    | nil => rfl
    | cons r t ih =>
      simp only [List.map_cons, List.zipWith_cons_cons]
      rw [set_getD_self r i, ih]

/-- `updateColumn` with a transform that returns its input unchanged leaves
the frame unchanged. -/
theorem updateColumn_id (df : DataFrame) (col : String)
    (t : List Cell → Except String (List Cell)) (ht : ∀ cs, t cs = .ok cs) :
    updateColumn df col t = .ok df := by
  unfold updateColumn
  refine foldlM_ok_id _ _ _ fun acc i _ => ?_
  rw [ht]
  simp [setColCells_getColCells]

theorem applyToCols_id (df : DataFrame) (cols : List String)
    (t : List Cell → Except String (List Cell)) (ht : ∀ cs, t cs = .ok cs) :
    applyToCols df cols t = .ok df := by
  unfold applyToCols
  refine foldlM_ok_id _ _ _ fun acc c _ => ?_
  split
  · exact updateColumn_id acc c t ht
  · rfl

/-! ## Claims -/

/-- C1 counterexample: on `A = {X:[1,2]}`, `B = {X:[1,5]}` over column `X`
the single DiffRecord carries `Row = 3` — the spreadsheet row `r + 2` the
code stores (csv_processor.py:413,422) — not the row index 1 the claim
states. -/
theorem C1_row_counterexample :
    (writeDiffReport ⟨["X"], [[.int 1], [.int 2]]⟩ ⟨["X"], [[.int 1], [.int 5]]⟩
        { columns := ["X"] }).toOption.map (fun p => p.2) =
      some [⟨3, "X", .int 2, .int 5, "Up"⟩] ∧
    (3 : Nat) ≠ 1 := by
  exact ⟨rfl, by decide⟩

/-- C1 (amended): the diff report on `A = {X:[1,2]}`, `B = {X:[1,5]}` over
column `X` produces exactly one DiffRecord with column `"X"`, old value 2,
new value 5 and direction `"Up"`, whose `Row` field is the spreadsheet row 3
(the 0-based differing row 1 plus 2, accounting for the sheet header), and
the workbook gains a `Diff Summary` sheet listing it. -/
theorem C1_diff_scenario :
    writeDiffReport ⟨["X"], [[.int 1], [.int 2]]⟩ ⟨["X"], [[.int 1], [.int 5]]⟩
        { columns := ["X"] } =
      .ok ([⟨"DataFrame__1", ⟨["X"], [[.int 1], [.int 2]]⟩⟩,
            ⟨"DataFrame__2", ⟨["X"], [[.int 1], [.int 5]]⟩⟩,
            ⟨"Diff Summary", ⟨["Row", "Column", "Old_1", "New_2", "Change"],
              [[.int 3, .text "X", .int 2, .int 5, .text "Up"]]⟩⟩],
           [⟨3, "X", .int 2, .int 5, "Up"⟩]) := by
  rfl

/-- C4 counterexample: the two columns `"a b"` and `"A_B"` both normalise to
`"A_B"` and `clean_column_names` keeps the duplicate pair as is — no `_<n>`
suffix is appended and the output names are not unique. -/
theorem C4_no_dedup_counterexample :
    cleanColumnNames ⟨["a b", "A_B"], []⟩ none (some "upper") true =
      ⟨["A_B", "A_B"], []⟩ ∧
    ¬ (cleanColumnNames ⟨["a b", "A_B"], []⟩ none (some "upper") true).names.Nodup := by
  exact ⟨rfl, by decide⟩

/-- C4 (amended): column-name normalisation rewrites every name
independently — the output names are exactly the input names mapped through
the per-name normaliser, with no collision resolution, so repeated
normalised names remain duplicated. -/
theorem C4_names_mapped_independently (df : DataFrame) (case : Option String)
    (strip_special : Bool) :
    (cleanColumnNames df none case strip_special).names =
      df.names.map (normaliseName case strip_special) := by
  unfold cleanColumnNames
  exact List.map_congr_left fun n hn => if_pos hn

/-- C5 counterexample: the controller stage `clean_column_name`
(csv_handling.py:83) assigns `df.columns = new_cols` on the caller's frame:
after the call on a frame with column `"a b"`, the argument object no longer
equals its original value — this pipeline stage mutates its input in place. -/
theorem C5_controller_mutates_counterexample :
    (chCleanColumnNameRun ⟨["a b"], []⟩ none).2 ≠ ⟨["a b"], []⟩ := by
  decide

/-- C5 (amended): the `Functions`-module stages (`clean_column_names`,
`clean_cell_values`, `formatting`) copy their input first and return a fresh
frame, leaving the caller's frame unchanged; the controller variant
`clean_column_name` instead mutates the caller's frame to the returned
value. -/
theorem C5_stage_mutation_discipline (df : DataFrame) (cols : Option (List String))
    (case : Option String) (ss : Bool) (mapping : List Job) :
    (cleanColumnNamesRun df cols case ss).2 = df ∧
    (cleanCellValuesRun df).2 = df ∧
    (formattingRun df mapping).2 = df ∧
    (chCleanColumnNameRun df cols).2 = (chCleanColumnNameRun df cols).1 := by
  exact ⟨rfl, rfl, rfl, rfl⟩

/-- C8: `merge(left={ID:[1,2]}, right={ID:[2,3], V:[9,8]}, on=["ID"])`
returns exactly one row with key `2` (held as the trimmed text `"2"`, since
keys are compared as trimmed text) and `V = 9`; the same result obtains when
the left key is the padded text `" 2 "`, and a key column absent on one side
is created as all-Null (yielding no text-matches against real keys). -/
theorem C8_merge_scenario :
    combineDf ⟨["ID"], [[.int 1], [.int 2]]⟩ ⟨["ID", "V"], [[.int 2, .int 9], [.int 3, .int 8]]⟩
        [{ method := "merge", on_keys := some ["ID"] }] =
      .ok ⟨["ID", "V"], [[.text "2", .int 9]]⟩ ∧
    combineDf ⟨["ID"], [[.text " 2 "], [.text "x"]]⟩
        ⟨["ID", "V"], [[.int 2, .int 9], [.int 3, .int 8]]⟩
        [{ method := "merge", on_keys := some ["ID"] }] =
      .ok ⟨["ID", "V"], [[.text "2", .int 9]]⟩ ∧
    combineDf ⟨["ID"], [[.int 1], [.int 2]]⟩ ⟨["V"], [[.int 9]]⟩
        [{ method := "merge", on_keys := some ["ID"] }] =
      .ok ⟨["ID", "V"], []⟩ := by
  exact ⟨rfl, rfl, rfl⟩

/-- A guarded-attempt cascade is `ok` whenever the unguarded latin1 parse at
its end is `ok` — the guarded attempts either succeed themselves or fall
through. -/
theorem cascadeRead_isOk (attempts : List (List Nat → Option String)) (b : List Nat)
    (h : (parseCSV (String.mk (latin1Decode b))).isOk = true) :
    (cascadeRead attempts b).isOk = true := by
  induction attempts with
  | nil => simpa [cascadeRead] using h
  | cons c rest ih =>
    unfold cascadeRead
    cases htr : tryRead c b with
    | error e => simpa using ih
    | ok df => simp [Except.isOk, Except.toBool]

/-- C2 counterexample: on the empty byte sequence every guarded attempt fails
(`pd.read_csv` raises `EmptyDataError` on empty input) and the final,
unguarded latin1 read raises the same error — the resolver does not return a
table for every byte sequence. -/
theorem C2_empty_input_counterexample :
    readWithEncodingFallback [] = .error "EmptyDataError: No columns to parse from file" := by
  rfl

/-- C2 (amended): the resolver is exactly the first-success cascade over
utf-8, utf-8-sig, gbk, gb2312, big5, shift_jis, cp1252 in that fixed order
with an unguarded latin1 read last; the latin1 decode itself is total and
byte-preserving, so the resolver returns a table whenever the latin1-decoded
text parses as delimited data — but for byte sequences whose text does not
parse (for example, empty input) the final parse error propagates, so the
resolver can raise. -/
theorem C2_fallback_cascade (b : List Nat) :
    readWithEncodingFallback b = cascadeRead encodingAttempts b ∧
    ((parseCSV (String.mk (latin1Decode b))).isOk = true →
      (readWithEncodingFallback b).isOk = true) ∧
    ((∀ x ∈ b, x < 256) → (latin1Decode b).map Char.toNat = b) := by
  refine ⟨rfl, fun h => ?_, fun hb => ?_⟩
  · rw [show readWithEncodingFallback b = cascadeRead encodingAttempts b from rfl]
    exact cascadeRead_isOk encodingAttempts b h
  · unfold latin1Decode
    rw [List.map_map]
    conv_rhs => rw [← List.map_id b]
    refine List.map_congr_left fun x hx => ?_
    exact toNat_ofNat_valid (Nat.lt_trans (hb x hx) (by norm_num))

/-- C2 witness: a concrete delimited byte sequence (the text `"A,B\n1,2\n"`)
on which the resolver succeeds, and a byte list the latin1 decoder preserves. -/
theorem C2_fallback_cascade_witness :
    (readWithEncodingFallback [65, 44, 66, 10, 49, 44, 50, 10]).isOk = true ∧
    (latin1Decode [65, 44, 66]).map Char.toNat = [65, 44, 66] :=
  ⟨(C2_fallback_cascade [65, 44, 66, 10, 49, 44, 50, 10]).2.1 (by decide),
   (C2_fallback_cascade [65, 44, 66]).2.2 (by decide)⟩

/-- The nine `trans_type` discriminators the `elif` chain of
`CSVCleaner.formatting` recognises. -/
def knownKinds : List String :=
  ["str", "int", "float", "bool", "percent", "date", "scale", "missing", "outlier"]

/-- C3 counterexample: a job list holding a structurally invalid job (kind
`"bogus"`) followed by a valid string-normalisation job runs to completion
with no configuration error, and the later job has been applied — the
pipeline neither fails fast nor leaves the table untouched. -/
theorem C3_no_fail_fast_counterexample :
    formatting ⟨["X"], [[.int 1], [.int 2]]⟩
        [{ Column := ["X"], trans_type := some "bogus" },
         { Column := ["X"], trans_type := some "str" }] =
      .ok ⟨["X"], [[.text "1"], [.text "2"]]⟩ ∧
    (⟨["X"], [[.text "1"], [.text "2"]]⟩ : DataFrame) ≠ ⟨["X"], [[.int 1], [.int 2]]⟩ := by
  exact ⟨rfl, by decide⟩

/-- C3 (amended): a job whose `kind` is outside the nine known discriminators
matches no branch of the `elif` chain and is silently skipped — the remaining
jobs still execute, and no configuration error is reported; likewise a
`missing` job lacking its required `strategy` parameter is a silent no-op. -/
theorem C3_invalid_job_silently_skipped (df : DataFrame) (j : Job) (rest : List Job)
    (hk : ∀ k ∈ knownKinds, j.trans_type ≠ some k) :
    formatting df (j :: rest) = formatting df rest ∧
    ∀ cols rest2, formatting df
        ({ Column := cols, trans_type := some "missing" } :: rest2) =
      formatting df rest2 := by
  constructor
  · have hj : jobStep df j = .ok df := by
      unfold jobStep
      rw [if_neg (hk "str" (by decide)), if_neg (hk "int" (by decide)),
          if_neg (hk "float" (by decide)), if_neg (hk "bool" (by decide)),
          if_neg (hk "percent" (by decide)), if_neg (hk "date" (by decide)),
          if_neg (hk "scale" (by decide)), if_neg (hk "missing" (by decide)),
          if_neg (hk "outlier" (by decide))]
    unfold formatting
    rw [List.foldlM_cons, hj]
    rfl
  · intro cols rest2
    have hj : jobStep df { Column := cols, trans_type := some "missing" } = .ok df := by
      unfold jobStep
      simp only [reduceIte]
      exact applyToCols_id df cols _ fun cs => rfl
    unfold formatting
    rw [List.foldlM_cons, hj]
    rfl

/-- C3 witness: the silent skip at a concrete frame and unknown-kind job. -/
theorem C3_invalid_job_silently_skipped_witness :
    formatting ⟨["X"], [[.int 1]]⟩ [{ Column := ["X"], trans_type := some "bogus" }] =
      formatting ⟨["X"], [[.int 1]]⟩ [] :=
  (C3_invalid_job_silently_skipped ⟨["X"], [[.int 1]]⟩
    { Column := ["X"], trans_type := some "bogus" } [] (by decide)).1

/-- C7 counterexample: Fill-Missing with `strategy=constant, fill_value=0`
leaves the marker string `"NA"` untouched — `fillna` only fills canonical
missing scalars — so a cell that is "missing" in the claim's sense (Null tag
or marker string) survives the job. -/
theorem C7_marker_not_filled_counterexample :
    formatting ⟨["A"], [[.text "NA"]]⟩
        [{ Column := ["A"], trans_type := some "missing",
           strategy := some "constant", fill_value := some (.int 0) }] =
      .ok ⟨["A"], [[.text "NA"]]⟩ ∧
    isMissingCell (.text "NA") = true := by
  exact ⟨rfl, rfl⟩

/-- C10 counterexample: exporting to a `.csv` path writes the bytes
`[88, 10, 49, 10]` (`"X\n1\n"` in plain UTF-8) — the stream does not begin
with the BOM `EF BB BF`, refuting "CSV output encoded as UTF-8 with BOM"
(the code passes `encoding='utf-8'`, csv_handling.py:337). -/
theorem C10_bom_counterexample :
    exportData ⟨["X"], [[.int 1]]⟩ "out.csv" none = .ok (.csv [88, 10, 49, 10]) ∧
    [88, 10, 49, 10].take 3 ≠ [0xEF, 0xBB, 0xBF] := by
  exact ⟨rfl, by decide⟩

/-- C10 (amended): with no explicit format, the export infers the format from
the lower-cased path extension; a `.csv` path is written as the plain UTF-8
encoding of the rendered table — no BOM is prepended — while `.json` yields
the ordered list of row objects and `.xlsx` the Excel writer. -/
theorem C10_export_format (df : DataFrame) (fn : String)
    (hcsv : strEndsWith (pyLowerStr fn) ".csv" = true) :
    exportData df fn none = .ok (.csv (utf8Encode (csvRender df))) ∧
    exportData df "report.json" none = .ok (.json (jsonRecords df)) ∧
    exportData df "report.xlsx" none = .ok (.excel df) := by
  refine ⟨?_, rfl, rfl⟩
  unfold exportData
  simp only [hcsv, reduceIte]
  rfl

/-- C10 witness: the amended statement at a concrete frame and path. -/
theorem C10_export_format_witness :
    exportData ⟨["X"], [[.int 1]]⟩ "data.csv" none =
      .ok (.csv (utf8Encode (csvRender ⟨["X"], [[.int 1]]⟩))) :=
  (C10_export_format ⟨["X"], [[.int 1]]⟩ "data.csv" (by decide)).1

/-! ### Character-level facts about the Python case maps (for C9) -/

theorem char_eq_of_toNat {a b : Char} (h : a.toNat = b.toNat) : a = b :=
  Char.ext (UInt32.toNat.inj h)

theorem pyUpperChar_toNat (c : Char) :
    (pyUpperChar c).toNat =
      if 97 ≤ c.toNat ∧ c.toNat ≤ 122 then c.toNat - 32 else c.toNat := by
  unfold pyUpperChar
  by_cases h : 97 ≤ c.toNat ∧ c.toNat ≤ 122
  · rw [if_pos h, if_pos h]
    exact toNat_ofNat_valid (by omega)
  · rw [if_neg h, if_neg h]

theorem pyLowerChar_toNat (c : Char) :
    (pyLowerChar c).toNat =
      if 65 ≤ c.toNat ∧ c.toNat ≤ 90 then c.toNat + 32 else c.toNat := by
  unfold pyLowerChar
  by_cases h : 65 ≤ c.toNat ∧ c.toNat ≤ 90
  · rw [if_pos h, if_pos h]
    exact toNat_ofNat_valid (by omega)
  · rw [if_neg h, if_neg h]

theorem pyUpperChar_idem (c : Char) : pyUpperChar (pyUpperChar c) = pyUpperChar c := by
  apply char_eq_of_toNat
  simp only [pyUpperChar_toNat]
  split_ifs <;> omega

theorem pyLowerChar_idem (c : Char) : pyLowerChar (pyLowerChar c) = pyLowerChar c := by
  apply char_eq_of_toNat
  simp only [pyLowerChar_toNat]
  split_ifs <;> omega

theorem isPyWs_pyUpperChar (c : Char) : isPyWs (pyUpperChar c) = isPyWs c := by
  unfold isPyWs
  rw [decide_eq_decide, pyUpperChar_toNat]
  split_ifs <;> omega

theorem isPyWs_pyLowerChar (c : Char) : isPyWs (pyLowerChar c) = isPyWs c := by
  unfold isPyWs
  rw [decide_eq_decide, pyLowerChar_toNat]
  split_ifs <;> omega

theorem isWordChar_pyUpperChar (c : Char) : isWordChar (pyUpperChar c) = isWordChar c := by
  unfold isWordChar
  rw [decide_eq_decide, pyUpperChar_toNat]
  split_ifs <;> omega

theorem isWordChar_pyLowerChar (c : Char) : isWordChar (pyLowerChar c) = isWordChar c := by
  unfold isWordChar
  rw [decide_eq_decide, pyLowerChar_toNat]
  split_ifs <;> omega

theorem pyUpperChar_us {c : Char} (h : c ≠ '_') : pyUpperChar c ≠ '_' := by
  intro hc
  apply h
  apply char_eq_of_toNat
  have := congrArg Char.toNat hc
  rw [pyUpperChar_toNat] at this
  have h95 : ('_' : Char).toNat = 95 := rfl
  rw [h95]
  split_ifs at this <;> omega

theorem pyLowerChar_us {c : Char} (h : c ≠ '_') : pyLowerChar c ≠ '_' := by
  intro hc
  apply h
  apply char_eq_of_toNat
  have := congrArg Char.toNat hc
  rw [pyLowerChar_toNat] at this
  have h95 : ('_' : Char).toNat = 95 := rfl
  rw [h95]
  split_ifs at this <;> omega

theorem isPyWs_us : isPyWs '_' = false := rfl

theorem isWordChar_us : isWordChar '_' = true := rfl

/-! ### List-level facts about the normalisation steps (for C9) -/

theorem dropWhile_eq_self_of_none {p : Char → Bool} :
    ∀ l : List Char, (∀ c ∈ l, p c = false) → l.dropWhile p = l
  | [], _ => rfl
  | c :: t, h => by
    rw [List.dropWhile_cons, h c (List.mem_cons_self c t)]
    simp

theorem pyStripList_eq_self (l : List Char) (h : ∀ c ∈ l, isPyWs c = false) :
    pyStripList l = l := by
  unfold pyStripList
  rw [dropWhile_eq_self_of_none l h,
      dropWhile_eq_self_of_none l.reverse (fun c hc => h c (List.mem_reverse.mp hc)),
      List.reverse_reverse]

theorem collapseWsAux_no_ws :
    ∀ (b : Bool) (l : List Char), ∀ x ∈ collapseWsAux b l, isPyWs x = false := by
  intro b l
  induction l generalizing b with
  | nil => intro x hx; simp [collapseWsAux] at hx
  | cons c t ih =>
    intro x hx
    unfold collapseWsAux at hx
    by_cases hw : isPyWs c = true
    · rw [if_pos hw] at hx
      cases b with
      | true => exact ih true x hx
      | false =>
        rcases List.mem_cons.mp hx with hx | hx
        · rw [hx]; exact isPyWs_us
        · exact ih true x hx
    · rw [if_neg hw] at hx
      rcases List.mem_cons.mp hx with hx | hx
      · rw [hx]; exact Bool.eq_false_iff.mpr hw
      · exact ih false x hx

theorem collapseWsAux_eq_self :
    ∀ (b : Bool) (l : List Char), (∀ c ∈ l, isPyWs c = false) → collapseWsAux b l = l := by
  intro b l
  induction l generalizing b with
  | nil => intro _; rfl
  | cons c t ih =>
    intro h
    unfold collapseWsAux
    rw [if_neg (by rw [h c (List.mem_cons_self c t)]; simp)]
    rw [ih false fun x hx => h x (List.mem_cons_of_mem c hx)]

theorem collapseWs_no_ws (l : List Char) : ∀ x ∈ collapseWs l, isPyWs x = false :=
  collapseWsAux_no_ws false l

theorem collapseWs_eq_self (l : List Char) (h : ∀ c ∈ l, isPyWs c = false) :
    collapseWs l = l :=
  collapseWsAux_eq_self false l h

theorem splitUnderscore_ne_nil : ∀ l : List Char, splitUnderscore l ≠ []
  | [] => by simp [splitUnderscore]
  | c :: t => by
    unfold splitUnderscore
    by_cases h : c = '_'
    · simp [h]
    · rw [if_neg h]
      cases hs : splitUnderscore t with
      | nil => simp
      | cons p ps => simp

theorem mem_splitUnderscore_no_us :
    ∀ l : List Char, ∀ p ∈ splitUnderscore l, '_' ∉ p := by
  intro l
  induction l with
  | nil =>
    intro p hp
    simp [splitUnderscore] at hp
    simp [hp]
  | cons c t ih =>
    intro p hp
    unfold splitUnderscore at hp
    by_cases h : c = '_'
    · rw [if_pos h] at hp
      rcases List.mem_cons.mp hp with hp | hp
      · simp [hp]
      · exact ih p hp
    · rw [if_neg h] at hp
      cases hs : splitUnderscore t with
      | nil => exact absurd hs (splitUnderscore_ne_nil t)
      | cons q qs =>
        rw [hs] at hp
        rcases List.mem_cons.mp hp with hp | hp
        · rw [hp]
          intro hmem
          rcases List.mem_cons.mp hmem with hc | hc
          · exact h hc.symm
          · exact ih q (hs ▸ List.mem_cons_self q qs) hc
        · exact ih p (hs ▸ List.mem_cons_of_mem q hp)

theorem mem_of_mem_splitUnderscore :
    ∀ (l : List Char) (p : List Char), p ∈ splitUnderscore l → ∀ x ∈ p, x ∈ l := by
  intro l
  induction l with
  | nil =>
    intro p hp x hx
    simp [splitUnderscore] at hp
    rw [hp] at hx
    simp at hx
  | cons c t ih =>
    intro p hp x hx
    unfold splitUnderscore at hp
    by_cases h : c = '_'
    · rw [if_pos h] at hp
      rcases List.mem_cons.mp hp with hp | hp
      · rw [hp] at hx; simp at hx
      · exact List.mem_cons_of_mem c (ih p hp x hx)
    · rw [if_neg h] at hp
      cases hs : splitUnderscore t with
      | nil => exact absurd hs (splitUnderscore_ne_nil t)
      | cons q qs =>
        rw [hs] at hp
        rcases List.mem_cons.mp hp with hp | hp
        · rw [hp] at hx
          rcases List.mem_cons.mp hx with hx | hx
          · exact hx ▸ List.mem_cons_self c t
          · exact List.mem_cons_of_mem c (ih q (hs ▸ List.mem_cons_self q qs) x hx)
        · exact List.mem_cons_of_mem c (ih p (hs ▸ List.mem_cons_of_mem q hp) x hx)

theorem joinUnderscore_cons_cons (p q : List Char) (ps : List (List Char)) :
    joinUnderscore (p :: q :: ps) = p ++ '_' :: joinUnderscore (q :: ps) := rfl

theorem mem_joinUnderscore :
    ∀ (ps : List (List Char)) (x : Char), x ∈ joinUnderscore ps → x = '_' ∨ ∃ p ∈ ps, x ∈ p
  | [], x, hx => by simp [joinUnderscore] at hx
  | [p], x, hx => Or.inr ⟨p, List.mem_cons_self p [], hx⟩
  | p :: q :: ps, x, hx => by
    rw [joinUnderscore_cons_cons] at hx
    rcases List.mem_append.mp hx with hx | hx
    · exact Or.inr ⟨p, List.mem_cons_self _ _, hx⟩
    · rcases List.mem_cons.mp hx with hx | hx
      · exact Or.inl hx
      · rcases mem_joinUnderscore (q :: ps) x hx with h | ⟨r, hr, hxr⟩
        · exact Or.inl h
        · exact Or.inr ⟨r, List.mem_cons_of_mem p hr, hxr⟩

theorem splitUnderscore_cons (c : Char) (t : List Char) :
    splitUnderscore (c :: t) =
      if c = '_' then [] :: splitUnderscore t
      else
        match splitUnderscore t with
        | p :: ps => (c :: p) :: ps
        | [] => [[c]] := rfl

theorem splitUnderscore_of_no_us :
    ∀ l : List Char, '_' ∉ l → splitUnderscore l = [l]
  | [], _ => rfl
  | c :: t, h => by
    rw [splitUnderscore_cons,
        if_neg (fun hc => h (by rw [← hc]; exact List.mem_cons_self c t)),
        splitUnderscore_of_no_us t fun ht => h (List.mem_cons_of_mem c ht)]

theorem splitUnderscore_append_sep :
    ∀ (p t : List Char), '_' ∉ p →
      splitUnderscore (p ++ '_' :: t) = p :: splitUnderscore t
  | [], t, _ => by simp [splitUnderscore_cons]
  | c :: p', t, h => by
    show splitUnderscore (c :: (p' ++ '_' :: t)) = _
    rw [splitUnderscore_cons,
        if_neg (fun hc => h (by rw [← hc]; exact List.mem_cons_self c p')),
        splitUnderscore_append_sep p' t fun hp => h (List.mem_cons_of_mem c hp)]

theorem splitUnderscore_joinUnderscore :
    ∀ ps : List (List Char), ps ≠ [] → (∀ p ∈ ps, '_' ∉ p) →
      splitUnderscore (joinUnderscore ps) = ps
  | [], hne, _ => absurd rfl hne
  | [p], _, h => splitUnderscore_of_no_us p (h p (List.mem_cons_self p []))
  | p :: q :: ps, _, h => by
    rw [joinUnderscore_cons_cons,
        splitUnderscore_append_sep p _ (h p (List.mem_cons_self _ _)),
        splitUnderscore_joinUnderscore (q :: ps) (by simp)
          fun r hr => h r (List.mem_cons_of_mem p hr)]

theorem pyCapitalize_idem (p : List Char) :
    pyCapitalize (pyCapitalize p) = pyCapitalize p := by
  cases p with
  | nil => rfl
  | cons c t =>
    show pyUpperChar (pyUpperChar c) :: (t.map pyLowerChar).map pyLowerChar = _
    rw [pyUpperChar_idem, List.map_map]
    exact congrArg _ (List.map_congr_left fun x _ => pyLowerChar_idem x)

theorem pyCapitalize_no_us {p : List Char} (h : '_' ∉ p) : '_' ∉ pyCapitalize p := by
  cases p with
  | nil => simp [pyCapitalize]
  | cons c t =>
    intro hmem
    rcases List.mem_cons.mp hmem with hc | hc
    · exact pyUpperChar_us (fun he => h (he ▸ List.mem_cons_self c t)) hc.symm
    · rcases List.mem_map.mp hc with ⟨y, hy, hyc⟩
      exact pyLowerChar_us (fun he => h (he ▸ List.mem_cons_of_mem c hy)) hyc

theorem mem_pyCapitalize {p : List Char} {x : Char} (hx : x ∈ pyCapitalize p) :
    ∃ y ∈ p, x = pyUpperChar y ∨ x = pyLowerChar y := by
  cases p with
  | nil => simp [pyCapitalize] at hx
  | cons c t =>
    rcases List.mem_cons.mp hx with hx | hx
    · exact ⟨c, List.mem_cons_self c t, Or.inl hx⟩
    · rcases List.mem_map.mp hx with ⟨y, hy, hyx⟩
      exact ⟨y, List.mem_cons_of_mem c hy, Or.inr hyx.symm⟩

/-! ### The per-name normaliser: characterisation and idempotence (C9) -/

theorem normaliseName_data (case : Option String) (ss : Bool) (s : String) :
    (normaliseName case ss s).data =
      (let l := if ss then (collapseWs (pyStripList s.data)).filter isWordChar
                else collapseWs (pyStripList s.data)
       let cv := pyLowerStr (case.getD "")
       if cv = "upper" then l.map pyUpperChar
       else if cv = "lower" then l.map pyLowerChar
       else if cv = "title" then joinUnderscore ((splitUnderscore l).map pyCapitalize)
       else l) := by
  unfold normaliseName
  dsimp only
  split_ifs <;> rfl

/-- Every character of the case-transformed list comes from the source list
through `pyUpperChar`/`pyLowerChar`, or is the underscore of a title join. -/
theorem caseApply_pred (cv : String) (P : Char → Bool) (hus : P '_' = true)
    (hup : ∀ c, P (pyUpperChar c) = P c) (hlo : ∀ c, P (pyLowerChar c) = P c)
    (L : List Char) (hL : ∀ x ∈ L, P x = true) :
    ∀ x ∈ (if cv = "upper" then L.map pyUpperChar
           else if cv = "lower" then L.map pyLowerChar
           else if cv = "title" then joinUnderscore ((splitUnderscore L).map pyCapitalize)
           else L), P x = true := by
  split_ifs
  · intro x hx
    rcases List.mem_map.mp hx with ⟨y, hy, hxy⟩
    rw [← hxy, hup]
    exact hL y hy
  · intro x hx
    rcases List.mem_map.mp hx with ⟨y, hy, hxy⟩
    rw [← hxy, hlo]
    exact hL y hy
  · intro x hx
    rcases mem_joinUnderscore _ x hx with h | ⟨p, hp, hxp⟩
    · rw [h]; exact hus
    · rcases List.mem_map.mp hp with ⟨q, hq, hqp⟩
      rcases mem_pyCapitalize (hqp ▸ hxp) with ⟨y, hy, hxy | hxy⟩
      · rw [hxy, hup]
        exact hL y (mem_of_mem_splitUnderscore _ q hq y hy)
      · rw [hxy, hlo]
        exact hL y (mem_of_mem_splitUnderscore _ q hq y hy)
  · exact hL

theorem normaliseName_no_ws (case : Option String) (ss : Bool) (s : String) :
    ∀ x ∈ (normaliseName case ss s).data, isPyWs x = false := by
  have main := caseApply_pred (pyLowerStr (case.getD "")) (fun c => !isPyWs c) rfl
    (fun c => by simp [isPyWs_pyUpperChar]) (fun c => by simp [isPyWs_pyLowerChar])
  rw [normaliseName_data]
  intro x hx
  cases ss
  · have := main (collapseWs (pyStripList s.data))
      (fun y hy => by simp [collapseWs_no_ws _ y hy]) x hx
    simpa using this
  · have := main ((collapseWs (pyStripList s.data)).filter isWordChar)
      (fun y hy => by simp [collapseWs_no_ws _ y (List.mem_filter.mp hy).1]) x hx
    simpa using this

theorem normaliseName_all_word (case : Option String) (s : String) :
    ∀ x ∈ (normaliseName case true s).data, isWordChar x = true := by
  have main := caseApply_pred (pyLowerStr (case.getD "")) isWordChar rfl
    isWordChar_pyUpperChar isWordChar_pyLowerChar
  rw [normaliseName_data]
  intro x hx
  exact main ((collapseWs (pyStripList s.data)).filter isWordChar)
    (fun y hy => (List.mem_filter.mp hy).2) x hx

theorem preprocess_eq_self (ss : Bool) (l : List Char)
    (hnw : ∀ x ∈ l, isPyWs x = false)
    (hwd : ss = true → ∀ x ∈ l, isWordChar x = true) :
    (if ss then (collapseWs (pyStripList l)).filter isWordChar
     else collapseWs (pyStripList l)) = l := by
  have h1 : pyStripList l = l := pyStripList_eq_self l hnw
  cases ss
  · rw [if_neg (by simp), h1, collapseWs_eq_self l hnw]
  · rw [if_pos rfl, h1, collapseWs_eq_self l hnw,
        List.filter_eq_self.mpr (hwd rfl)]

/-- The case transform of `normaliseName` is idempotent on lists. -/
theorem caseApply_idem (cv : String) (L : List Char) :
    (if cv = "upper" then
        (if cv = "upper" then L.map pyUpperChar
         else if cv = "lower" then L.map pyLowerChar
         else if cv = "title" then joinUnderscore ((splitUnderscore L).map pyCapitalize)
         else L).map pyUpperChar
     else if cv = "lower" then
        (if cv = "upper" then L.map pyUpperChar
         else if cv = "lower" then L.map pyLowerChar
         else if cv = "title" then joinUnderscore ((splitUnderscore L).map pyCapitalize)
         else L).map pyLowerChar
     else if cv = "title" then
        joinUnderscore ((splitUnderscore
          (if cv = "upper" then L.map pyUpperChar
           else if cv = "lower" then L.map pyLowerChar
           else if cv = "title" then joinUnderscore ((splitUnderscore L).map pyCapitalize)
           else L)).map pyCapitalize)
     else
        (if cv = "upper" then L.map pyUpperChar
         else if cv = "lower" then L.map pyLowerChar
         else if cv = "title" then joinUnderscore ((splitUnderscore L).map pyCapitalize)
         else L)) =
    (if cv = "upper" then L.map pyUpperChar
     else if cv = "lower" then L.map pyLowerChar
     else if cv = "title" then joinUnderscore ((splitUnderscore L).map pyCapitalize)
     else L) := by
  split_ifs with h1 h2 h3
  · rw [List.map_map]
    exact List.map_congr_left fun x _ => pyUpperChar_idem x
  · rw [List.map_map]
    exact List.map_congr_left fun x _ => pyLowerChar_idem x
  · have hparts : ∀ p ∈ (splitUnderscore L).map pyCapitalize, '_' ∉ p := by
      intro p hp
      rcases List.mem_map.mp hp with ⟨q, hq, hqp⟩
      rw [← hqp]
      exact pyCapitalize_no_us (mem_splitUnderscore_no_us _ q hq)
    rw [splitUnderscore_joinUnderscore _ (by simp [splitUnderscore_ne_nil]) hparts,
        List.map_map]
    exact congrArg joinUnderscore (List.map_congr_left fun p _ => pyCapitalize_idem p)
  · rfl

theorem normaliseName_idem (case : Option String) (ss : Bool) (s : String) :
    normaliseName case ss (normaliseName case ss s) = normaliseName case ss s := by
  apply String.ext
  have hnw := normaliseName_no_ws case ss s
  have hwd : ss = true → ∀ x ∈ (normaliseName case ss s).data, isWordChar x = true := by
    intro h
    cases h
    exact normaliseName_all_word case s
  rw [normaliseName_data case ss (normaliseName case ss s)]
  dsimp only
  rw [preprocess_eq_self ss (normaliseName case ss s).data hnw hwd]
  rw [normaliseName_data case ss s]
  dsimp only
  exact caseApply_idem (pyLowerStr (case.getD ""))
    (if ss then (collapseWs (pyStripList s.data)).filter isWordChar
     else collapseWs (pyStripList s.data))

/-! ### Infrastructure for the Fill-Missing characterisation (C7) -/

theorem map_getD_nil {u : List Cell → List Cell} (hu : u [] = []) :
    ∀ (rows : List (List Cell)) (r : Nat), (rows.map u).getD r [] = u (rows.getD r [])
  | [], r => by simp [hu]
  | x :: t, 0 => rfl
  | x :: t, r + 1 => map_getD_nil hu t r

/-- One fill pass over column `i` rewrites each row at position `i`. -/
theorem setColCells_fill (X : DataFrame) (i : Nat) (f : Cell → Cell) :
    setColCells X i ((getColCells X i).map f) =
      ⟨X.names, X.rows.map fun r => r.set i (f (r.getD i Cell.null))⟩ := by
  unfold setColCells getColCells
  simp only [DataFrame.mk.injEq, true_and]
  rw [List.map_map, List.zipWith_map_right, List.zipWith_same]
  rfl

theorem cellAt_fillStep (X : DataFrame) (i : Nat) (f : Cell → Cell) (r j : Nat) :
    cellAt (setColCells X i ((getColCells X i).map f)) r j =
      if i = j ∧ j < (X.rows.getD r []).length then f (cellAt X r j)
      else cellAt X r j := by
  rw [setColCells_fill]
  unfold cellAt
  simp only
  rw [map_getD_nil rfl X.rows r, getD_set]
  by_cases hij : i = j
  · subst hij; rfl
  · rw [if_neg (by tauto), if_neg (by tauto)]

theorem fillStep_rowLen (X : DataFrame) (i : Nat) (f : Cell → Cell) (r : Nat) :
    ((setColCells X i ((getColCells X i).map f)).rows.getD r []).length =
      (X.rows.getD r []).length := by
  rw [setColCells_fill]
  simp only
  rw [map_getD_nil rfl X.rows r, List.length_set]

theorem fillStep_rowsLength (X : DataFrame) (i : Nat) (f : Cell → Cell) :
    (setColCells X i ((getColCells X i).map f)).rows.length = X.rows.length := by
  rw [setColCells_fill]
  exact List.length_map _ _

/-- Folding the fill pass over a duplicate-free index list rewrites exactly
the cells in those columns. -/
theorem foldl_fill (f : Cell → Cell) :
    ∀ (idxs : List Nat) (X : DataFrame), idxs.Nodup →
      (idxs.foldl (fun acc i => setColCells acc i ((getColCells acc i).map f)) X).names
          = X.names ∧
      (idxs.foldl (fun acc i => setColCells acc i ((getColCells acc i).map f)) X).rows.length
          = X.rows.length ∧
      (∀ r, ((idxs.foldl (fun acc i => setColCells acc i ((getColCells acc i).map f)) X).rows.getD r []).length
          = (X.rows.getD r []).length) ∧
      (∀ r j, cellAt (idxs.foldl (fun acc i => setColCells acc i ((getColCells acc i).map f)) X) r j =
        if j ∈ idxs ∧ j < (X.rows.getD r []).length then f (cellAt X r j)
        else cellAt X r j)
  | [], X, _ => ⟨rfl, rfl, fun _ => rfl, fun r j => by simp⟩
  | i :: is, X, hnd => by
    have hnotmem : i ∉ is := (List.nodup_cons.mp hnd).1
    have ih := foldl_fill f is (setColCells X i ((getColCells X i).map f))
      (List.nodup_cons.mp hnd).2
    rw [List.foldl_cons]
    refine ⟨ih.1.trans (by rw [setColCells_fill]), ih.2.1.trans (fillStep_rowsLength X i f),
      fun r => (ih.2.2.1 r).trans (fillStep_rowLen X i f r), fun r j => ?_⟩
    rw [ih.2.2.2 r j, fillStep_rowLen X i f r, cellAt_fillStep]
    by_cases hjis : j ∈ is
    · have hij : i ≠ j := fun hc => hnotmem (hc ▸ hjis)
      by_cases hlen : j < (X.rows.getD r []).length
      · rw [if_pos ⟨hjis, hlen⟩, if_neg (by tauto), if_pos ⟨List.mem_cons_of_mem i hjis, hlen⟩]
      · rw [if_neg (by tauto), if_neg (by tauto), if_neg (by tauto)]
    · rw [if_neg (by tauto)]
      by_cases hij : i = j
      · subst hij
        by_cases hlen : i < (X.rows.getD r []).length
        · rw [if_pos ⟨rfl, hlen⟩, if_pos ⟨List.mem_cons_self i is, hlen⟩]
        · rw [if_neg (by tauto), if_neg (by tauto)]
      · rw [if_neg (by tauto), if_neg (by simp [List.mem_cons]; tauto)]

theorem mem_colIndices {names : List String} {col : String} {j : Nat} :
    j ∈ colIndices names col ↔ j < names.length ∧ names.getD j "" = col := by
  unfold colIndices
  rw [List.mem_filter, List.mem_range]
  simp

theorem colIndices_nodup (names : List String) (col : String) :
    (colIndices names col).Nodup :=
  (List.nodup_range names.length).filter _

theorem getD_mem_of_lt (l : List String) (j : Nat) (h : j < l.length) :
    l.getD j "" ∈ l := by
  rw [List.getD_eq_getElem _ _ h]
  exact List.getElem_mem h

theorem finalizeFrame_id (df : DataFrame) : finalizeFrame df = df := by
  unfold finalizeFrame
  cases df with
  | mk names rows =>
    simp only [DataFrame.mk.injEq, true_and]
    have hcell : ∀ c : Cell, (if c = Cell.null then Cell.null else c) = c := by
      intro c
      split <;> simp_all
    simp [hcell]

/-- C7 (amended): the constant-strategy Fill-Missing job fills exactly the
canonical-Null cells of the target column with the fill value and never
alters a present value; in particular no Null cell remains in the target
column, but marker strings — present values to `fillna` — are untouched (see
the counterexample), so a "missing" cell in the MissingMarker sense can
survive. -/
theorem C7_constant_fill_nulls_only (df : DataFrame) (col : String) (v : Cell)
    (hw : df.Wf) (hv : v ≠ Cell.null) :
    ∃ df', formatting df
        [{ Column := [col], trans_type := some "missing",
           strategy := some "constant", fill_value := some v }] = .ok df' ∧
      df'.names = df.names ∧ df'.rows.length = df.rows.length ∧
      (∀ r j, cellAt df' r j =
        if df.names.getD j "" = col ∧ j < (df.rows.getD r []).length ∧
            cellAt df r j = Cell.null
        then v else cellAt df r j) ∧
      (∀ r j, df.names.getD j "" = col → j < (df.rows.getD r []).length →
        cellAt df' r j ≠ Cell.null) ∧
      (∀ r j, cellAt df r j ≠ Cell.null → cellAt df' r j = cellAt df r j) := by
  have hrowlen : ∀ r j, j < (df.rows.getD r []).length → j < df.names.length := by
    intro r j hj
    by_cases hr : r < df.rows.length
    · have hmem : df.rows.getD r [] ∈ df.rows := by
        rw [List.getD_eq_getElem _ _ hr]
        exact List.getElem_mem hr
      rw [← hw _ hmem]
      exact hj
    · rw [List.getD_eq_default _ _ (Nat.le_of_not_lt hr)] at hj
      exact absurd hj (by simp)
  have hcond : ∀ r j, (j ∈ colIndices df.names col ∧ j < (df.rows.getD r []).length) ↔
      (df.names.getD j "" = col ∧ j < (df.rows.getD r []).length) := by
    intro r j
    constructor
    · rintro ⟨hmem, hlen⟩
      exact ⟨(mem_colIndices.mp hmem).2, hlen⟩
    · rintro ⟨hname, hlen⟩
      exact ⟨mem_colIndices.mpr ⟨hrowlen r j hlen, hname⟩, hlen⟩
  set fillv : Cell → Cell := fun c => if c = Cell.null then v else c with hfillv
  have hjs : jobStep df
      { Column := [col], trans_type := some "missing",
        strategy := some "constant", fill_value := some v } =
      applyToCols df [col] (missingTransform (some "constant") (some v)) := rfl
  have hfmt : ∀ X, applyToCols df [col] (missingTransform (some "constant") (some v)) = .ok X →
      formatting df
        [{ Column := [col], trans_type := some "missing",
           strategy := some "constant", fill_value := some v }] = .ok X := by
    intro X hX
    unfold formatting
    rw [List.foldlM_cons, hjs, hX]
    show Except.ok (finalizeFrame X) = _
    rw [finalizeFrame_id]
  have htrans : ∀ cs, missingTransform (some "constant") (some v) cs = .ok (cs.map fillv) := by
    intro cs
    rfl
  by_cases hc : col ∈ df.names
  · have happ : applyToCols df [col] (missingTransform (some "constant") (some v)) =
        .ok ((colIndices df.names col).foldl
          (fun acc i => setColCells acc i ((getColCells acc i).map fillv)) df) := by
      unfold applyToCols
      rw [List.foldlM_cons]
      rw [if_pos hc]
      have hupd : updateColumn df col (missingTransform (some "constant") (some v)) =
          .ok ((colIndices df.names col).foldl
            (fun acc i => setColCells acc i ((getColCells acc i).map fillv)) df) := by
        unfold updateColumn
        refine foldlM_ok _ _ _ _ fun acc i _ => ?_
        rw [htrans]
        rfl
      rw [hupd]
      rfl
    have hchar := foldl_fill fillv (colIndices df.names col) df (colIndices_nodup _ _)
    refine ⟨_, hfmt _ happ, hchar.1, hchar.2.1, ?_, ?_, ?_⟩
    · intro r j
      rw [hchar.2.2.2 r j]
      by_cases h1 : j ∈ colIndices df.names col ∧ j < (df.rows.getD r []).length
      · rw [if_pos h1]
        have h2 := (hcond r j).mp h1
        by_cases hnull : cellAt df r j = Cell.null
        · rw [if_pos ⟨h2.1, h2.2, hnull⟩, hfillv]
          simp [hnull]
        · rw [if_neg (by tauto), hfillv]
          simp [hnull]
      · rw [if_neg h1, if_neg (fun hcl => h1 ((hcond r j).mpr ⟨hcl.1, hcl.2.1⟩))]
    · intro r j hname hlen
      rw [hchar.2.2.2 r j, if_pos ⟨(hcond r j).mpr ⟨hname, hlen⟩ |>.1, hlen⟩, hfillv]
      by_cases hnull : cellAt df r j = Cell.null
      · simpa [hnull] using hv
      · simp [hnull]
    · intro r j hnn
      rw [hchar.2.2.2 r j]
      by_cases h1 : j ∈ colIndices df.names col ∧ j < (df.rows.getD r []).length
      · rw [if_pos h1, hfillv]
        simp [hnn]
      · rw [if_neg h1]
  · have happ : applyToCols df [col] (missingTransform (some "constant") (some v)) = .ok df := by
      unfold applyToCols
      rw [List.foldlM_cons]
      rw [if_neg hc]
      rfl
    refine ⟨df, hfmt df happ, rfl, rfl, ?_, ?_, fun _ _ _ => rfl⟩
    · intro r j
      by_cases hcl : df.names.getD j "" = col ∧ j < (df.rows.getD r []).length ∧
          cellAt df r j = Cell.null
      · exact absurd (hcl.1 ▸ getD_mem_of_lt df.names j (hrowlen r j hcl.2.1)) hc
      · rw [if_neg hcl]
    · intro r j hname hlen
      exact absurd (hname ▸ getD_mem_of_lt df.names j (hrowlen r j hlen)) hc

/-! ### The normaliser under the Unicode case maps (C9) -/

theorem mem_pyStripList {l : List Char} {x : Char} (h : x ∈ pyStripList l) : x ∈ l := by
  unfold pyStripList at h
  rw [List.mem_reverse] at h
  have h1 := (List.dropWhile_sublist isPyWs).subset h
  rw [List.mem_reverse] at h1
  exact (List.dropWhile_sublist isPyWs).subset h1

theorem mem_collapseWsAux {x : Char} :
    ∀ (b : Bool) (l : List Char), x ∈ collapseWsAux b l → x = '_' ∨ x ∈ l := by
  intro b l
  induction l generalizing b with
  | nil => intro h; simp [collapseWsAux] at h
  | cons c t ih =>
    intro h
    unfold collapseWsAux at h
    by_cases hw : isPyWs c = true
    · rw [if_pos hw] at h
      cases b with
      | true =>
        rcases ih true h with h1 | h1
        · exact Or.inl h1
        · exact Or.inr (List.mem_cons_of_mem c h1)
      | false =>
        rcases List.mem_cons.mp h with h1 | h1
        · exact Or.inl h1
        · rcases ih true h1 with h2 | h2
          · exact Or.inl h2
          · exact Or.inr (List.mem_cons_of_mem c h2)
    · rw [if_neg hw] at h
      rcases List.mem_cons.mp h with h1 | h1
      · exact Or.inr (h1 ▸ List.mem_cons_self c t)
      · rcases ih false h1 with h2 | h2
        · exact Or.inl h2
        · exact Or.inr (List.mem_cons_of_mem c h2)

/-- The ASCII-model normaliser emits only ASCII characters on ASCII input. -/
theorem normaliseName_ascii (case : Option String) (ss : Bool) (s : String)
    (hs : ∀ c ∈ s.data, c.toNat < 128) :
    ∀ x ∈ (normaliseName case ss s).data, x.toNat < 128 := by
  have main := caseApply_pred (pyLowerStr (case.getD "")) (fun c => decide (c.toNat < 128))
    (by decide)
    (fun c => by
      simp only [pyUpperChar_toNat]
      rw [decide_eq_decide]
      split_ifs <;> omega)
    (fun c => by
      simp only [pyLowerChar_toNat]
      rw [decide_eq_decide]
      split_ifs <;> omega)
  rw [normaliseName_data]
  intro x hx
  have hbase : ∀ (L : List Char), (∀ y ∈ L, y = '_' ∨ y ∈ pyStripList s.data) →
      ∀ y ∈ L, decide (y.toNat < 128) = true := by
    intro L hmem y hy
    rcases hmem y hy with h | h
    · rw [h]; decide
    · simpa using hs y (mem_pyStripList h)
  cases ss
  · have := main (collapseWs (pyStripList s.data))
      (hbase _ fun y hy => mem_collapseWsAux false _ hy) x hx
    simpa using this
  · have := main ((collapseWs (pyStripList s.data)).filter isWordChar)
      (hbase _ fun y hy => mem_collapseWsAux false _ (List.mem_filter.mp hy).1) x hx
    simpa using this

theorem pyUpperCharU_ascii {c : Char} (h : c.toNat < 128) :
    pyUpperCharU c = [pyUpperChar c] := by
  unfold pyUpperCharU
  rw [if_neg (by omega), if_neg (by omega)]

theorem pyTitleCharU_ascii {c : Char} (h : c.toNat < 128) :
    pyTitleCharU c = [pyUpperChar c] := by
  unfold pyTitleCharU
  rw [if_neg (by omega), if_neg (by omega)]

theorem flatMap_singleton (f : Char → List Char) (g : Char → Char) :
    ∀ l : List Char, (∀ c ∈ l, f c = [g c]) → l.flatMap f = l.map g
  | [], _ => rfl
  | c :: t, h => by
    rw [List.flatMap_cons, h c (List.mem_cons_self c t),
        flatMap_singleton f g t fun d hd => h d (List.mem_cons_of_mem c hd)]
    rfl

theorem pyCapitalizeU_ascii {p : List Char} (h : ∀ c ∈ p, c.toNat < 128) :
    pyCapitalizeU p = pyCapitalize p := by
  cases p with
  | nil => rfl
  | cons c t =>
    show pyTitleCharU c ++ t.flatMap pyLowerCharU = pyUpperChar c :: t.map pyLowerChar
    rw [pyTitleCharU_ascii (h c (List.mem_cons_self c t)),
        flatMap_singleton pyLowerCharU pyLowerChar t fun d _ => rfl]
    rfl

theorem normaliseNameU_data (case : Option String) (ss : Bool) (s : String) :
    (normaliseNameU case ss s).data =
      (let l := if ss then (collapseWs (pyStripList s.data)).filter isWordChar
                else collapseWs (pyStripList s.data)
       let cv := pyLowerStr (case.getD "")
       if cv = "upper" then l.flatMap pyUpperCharU
       else if cv = "lower" then l.flatMap pyLowerCharU
       else if cv = "title" then joinUnderscore ((splitUnderscore l).map pyCapitalizeU)
       else l) := by
  unfold normaliseNameU
  dsimp only
  split_ifs <;> rfl

/-- On ASCII names the Unicode-aware normaliser coincides with the ASCII
model. -/
theorem normaliseNameU_eq_ascii (case : Option String) (ss : Bool) (s : String)
    (hs : ∀ c ∈ s.data, c.toNat < 128) :
    normaliseNameU case ss s = normaliseName case ss s := by
  apply String.ext
  rw [normaliseNameU_data, normaliseName_data]
  dsimp only
  have hL : ∀ y ∈ (if ss then (collapseWs (pyStripList s.data)).filter isWordChar
      else collapseWs (pyStripList s.data)), y.toNat < 128 := by
    intro y hy
    have hy' : y = '_' ∨ y ∈ pyStripList s.data := by
      cases ss
      · exact mem_collapseWsAux false _ hy
      · exact mem_collapseWsAux false _ (List.mem_filter.mp hy).1
    rcases hy' with h | h
    · rw [h]; decide
    · exact hs y (mem_pyStripList h)
  revert hL
  generalize (if ss then (collapseWs (pyStripList s.data)).filter isWordChar
      else collapseWs (pyStripList s.data)) = L
  intro hL
  split_ifs
  · exact flatMap_singleton pyUpperCharU pyUpperChar L fun c hc => pyUpperCharU_ascii (hL c hc)
  · exact flatMap_singleton pyLowerCharU pyLowerChar L fun c _ => rfl
  · exact congrArg joinUnderscore (List.map_congr_left fun p hp =>
      pyCapitalizeU_ascii fun c hc => hL c (mem_of_mem_splitUnderscore L p hp c hc))
  · rfl

/-- C9 counterexample: with `case="title"` and `strip_special=False`, the
single-column name `"ŉ"` (U+0149) normalises to `"ʼN"` — CPython title-cases
the first character with the full Unicode mapping (`'ŉ'.capitalize()` is
`'ʼN'`) — and a second pass lower-cases the trailing `N`, giving `"ʼn"`: so
`normalize(normalize(T)) ≠ normalize(T)` and the universal idempotence claim
fails on the program. -/
theorem C9_title_unicode_counterexample :
    cleanColumnNamesU ⟨["ŉ"], []⟩ none (some "title") false = ⟨["ʼN"], []⟩ ∧
    cleanColumnNamesU ⟨["ʼN"], []⟩ none (some "title") false = ⟨["ʼn"], []⟩ ∧
    cleanColumnNamesU (cleanColumnNamesU ⟨["ŉ"], []⟩ none (some "title") false)
        none (some "title") false ≠
      cleanColumnNamesU ⟨["ŉ"], []⟩ none (some "title") false := by
  exact ⟨by decide, by decide, by decide⟩

/-- C9 (amended): column-name normalisation is idempotent on every table
whose column names consist of ASCII characters, for every `case` option
(any string — unrecognised values leave the case untouched) and both
`strip_special` settings; for non-ASCII names idempotence can fail (see the
`"ŉ"` counterexample), because `str.capitalize()` title-cases with the full
Unicode mappings. -/
theorem C9_normalization_idempotent_ascii (df : DataFrame) (case : Option String)
    (ss : Bool) (h : ∀ n ∈ df.names, ∀ c ∈ n.data, c.toNat < 128) :
    cleanColumnNamesU (cleanColumnNamesU df none case ss) none case ss =
      cleanColumnNamesU df none case ss := by
  have hmapU : ∀ X : DataFrame, cleanColumnNamesU X none case ss =
      ⟨X.names.map (normaliseNameU case ss), X.rows⟩ := by
    intro X
    unfold cleanColumnNamesU
    cases X with
    | mk names rows =>
      exact congrArg (DataFrame.mk · rows) (List.map_congr_left fun n hn => if_pos hn)
  rw [hmapU df, hmapU ⟨df.names.map (normaliseNameU case ss), df.rows⟩]
  refine congrArg (DataFrame.mk · df.rows) ?_
  rw [List.map_map]
  refine List.map_congr_left fun n hn => ?_
  have hA : ∀ c ∈ n.data, c.toNat < 128 := h n hn
  show normaliseNameU case ss (normaliseNameU case ss n) = normaliseNameU case ss n
  rw [normaliseNameU_eq_ascii case ss n hA,
      normaliseNameU_eq_ascii case ss _ (normaliseName_ascii case ss n hA),
      normaliseName_idem]

/-- C9 witness: the amended statement at a concrete ASCII-named table with
the title case option. -/
theorem C9_normalization_idempotent_ascii_witness :
    (∀ n ∈ (⟨["a b", "A_B"], []⟩ : DataFrame).names, ∀ c ∈ n.data, c.toNat < 128) ∧
    cleanColumnNamesU
        (cleanColumnNamesU ⟨["a b", "A_B"], []⟩ none (some "title") false)
        none (some "title") false =
      cleanColumnNamesU ⟨["a b", "A_B"], []⟩ none (some "title") false :=
  ⟨by decide,
   C9_normalization_idempotent_ascii ⟨["a b", "A_B"], []⟩ (some "title") false (by decide)⟩

/-- C7 witness: the amended statement at a concrete frame — the Null cell of
column `A` is filled with `0`, the present cell survives unchanged. -/
theorem C7_constant_fill_nulls_only_witness :
    (⟨["A"], [[Cell.null], [Cell.int 7]]⟩ : DataFrame).Wf ∧
    (Cell.int 0 ≠ Cell.null) ∧
    ∃ df', formatting ⟨["A"], [[Cell.null], [Cell.int 7]]⟩
        [{ Column := ["A"], trans_type := some "missing",
           strategy := some "constant", fill_value := some (Cell.int 0) }] = .ok df' ∧
      df'.names = (⟨["A"], [[Cell.null], [Cell.int 7]]⟩ : DataFrame).names ∧
      df'.rows.length = (⟨["A"], [[Cell.null], [Cell.int 7]]⟩ : DataFrame).rows.length ∧
      (∀ r j, cellAt df' r j =
        if (⟨["A"], [[Cell.null], [Cell.int 7]]⟩ : DataFrame).names.getD j "" = "A" ∧
            j < ((⟨["A"], [[Cell.null], [Cell.int 7]]⟩ : DataFrame).rows.getD r []).length ∧
            cellAt ⟨["A"], [[Cell.null], [Cell.int 7]]⟩ r j = Cell.null
        then Cell.int 0 else cellAt ⟨["A"], [[Cell.null], [Cell.int 7]]⟩ r j) ∧
      (∀ r j, (⟨["A"], [[Cell.null], [Cell.int 7]]⟩ : DataFrame).names.getD j "" = "A" →
        j < ((⟨["A"], [[Cell.null], [Cell.int 7]]⟩ : DataFrame).rows.getD r []).length →
        cellAt df' r j ≠ Cell.null) ∧
      (∀ r j, cellAt ⟨["A"], [[Cell.null], [Cell.int 7]]⟩ r j ≠ Cell.null →
        cellAt df' r j = cellAt ⟨["A"], [[Cell.null], [Cell.int 7]]⟩ r j) :=
  ⟨by decide, by decide,
   C7_constant_fill_nulls_only ⟨["A"], [[Cell.null], [Cell.int 7]]⟩ "A" (Cell.int 0)
     (by decide) (by decide)⟩

end Horisation
